import Mathlib

/-!
# SlopeCraft kernel: the allowed-colour selector and the session step

A shallow embedding of `TokiSlopeCraft` (src/SlopeCraftL/TokiSlopeCraft.cpp):
`setType`, `setRawImage` and the size and count queries, with the static
members of the class gathered in `Statics`, the members of one kernel in
`TokiSlopeCraft`, and every kernel registered in `kernel_hash_set` in `World`.
Calls made through the `reportError` and `reportWorkingStatue` callbacks are
recorded, in order, in the log of the kernel that makes them.

Besides the kernel: `TokiVC::build` (src/VisualCraftL/TokiVC_build.cpp),
`zipped_folder::merge_from_base` (src/VisualCraftL/Resource_tree.cpp), and
`showError`, `preProcess` and the map-file range of the main window
(src/SlopeCraftMain/MainWindow.cpp).
-/

namespace SlopeCraft

/-! ## Enumerations -/

/-- Modelled from the spec: `SCL_step` is declared in SC_GlobalEnums.h, which is
not among the sources. The five session states, in their linear order
(Empty, PaletteReady, ImageLoaded, Converted, Built in the words of the spec),
under the names TokiSlopeCraft.cpp uses. -/
inductive step where
  | nothing
  | wait4Image
  | convertionReady
  | converted
  | builded
  deriving DecidableEq, Repr

/-- The integer an enumerator of `step` stands for; `<` on steps is `<` here. -/
def step.toNat : step → Nat
  | .nothing => 0
  | .wait4Image => 1
  | .convertionReady => 2
  | .converted => 3
  | .builded => 4

instance : LT step := ⟨fun a b => a.toNat < b.toNat⟩
instance : LE step := ⟨fun a b => a.toNat ≤ b.toNat⟩
instance (a b : step) : Decidable (a < b) := inferInstanceAs (Decidable (a.toNat < b.toNat))
instance (a b : step) : Decidable (a ≤ b) := inferInstanceAs (Decidable (a.toNat ≤ b.toNat))

/-- Modelled from the spec: `SCL_mapTypes` is declared in SC_GlobalEnums.h, which
is not among the sources; these are the four enumerators the sources name. -/
inductive mapTypes where
  | Slope
  | Flat
  | FileOnly
  | Wall
  deriving DecidableEq, Repr

/-- Modelled from the spec: the enumerators of `SCL_errorFlag` that
TokiSlopeCraft.cpp reports (the declaration is not among the sources). -/
inductive errorFlag where
  | HASTY_MANIPULATION
  | EMPTY_RAW_IMAGE
  | USEABLE_COLOR_TOO_FEW
  deriving DecidableEq, Repr

/-- Modelled from the spec: the enumerators of `SCL_workStatues` that `setType`
reports (the declaration is not among the sources). -/
inductive workStatues where
  | none
  | collectingColors
  deriving DecidableEq, Repr

/-- One call made through a callback of a kernel. -/
inductive Report where
  | error (flag : errorFlag) (msg : String)
  | workingStatue (s : workStatues)
  deriving DecidableEq, Repr

/-! ## Blocks, images, colour sets -/

/-- Modelled from the spec: `simpleBlock` is declared in simpleBlock.h, which is
not among the sources. The attribute bag behind the accessors of
`AbstractBlock` (SlopeCraftL.h); `setType` reads and writes `id` and `idOld`. -/
structure simpleBlock where
  id : String
  version : Nat
  idOld : String
  needGlass : Bool
  doGlow : Bool
  endermanPickable : Bool
  burnable : Bool
  nameZH : String
  nameEN : String
  imageFilename : String
  deriving DecidableEq, Repr, Inhabited

/-- An `EImage`: a matrix of ARGB32 pixels, stored column by column. -/
structure EImage where
  rows : Nat
  cols : Nat
  data : List Nat
  deriving DecidableEq, Repr

/-- The number of cells of the matrix, `rows() * cols()`. -/
def EImage.size (m : EImage) : Nat := m.rows * m.cols

/-- The matrix `setZero(rows, cols)` leaves. -/
def EImage.zero (rows cols : Nat) : EImage :=
  { rows := rows, cols := cols, data := List.replicate (rows * cols) 0 }

/-- Modelled from the spec: `colorset_allowed_t` is declared in a header that is
not among the sources. Of the allowed-colour set the kernel reads
`color_count()` and `Map(idx)`, the map colour of the entry at `idx`. -/
structure colorset_allowed_t where
  color_id : List Nat
  deriving DecidableEq, Repr

/-- The number of entries of the set. -/
def colorset_allowed_t.color_count (a : colorset_allowed_t) : Nat := a.color_id.length

/-- The map colour of the entry at `idx`. -/
def colorset_allowed_t.Map (a : colorset_allowed_t) (idx : Nat) : Nat := a.color_id.getD idx 0

/-- The voxel grid `schem`: its three extents and its cells in storage order. -/
structure Schem where
  x_range : Nat
  y_range : Nat
  z_range : Nat
  data : List Nat
  deriving DecidableEq, Repr

/-- The number of cells of the grid. -/
def Schem.size (s : Schem) : Nat := s.data.length

/-- Modelled from the spec: what `setType` uses and the sources do not define.
The four enumerators of `SCL_gameVersion` it names, as the integers they stand
for; the body of `AbstractBlock::clear`; the block a default-constructed
`simpleBlock` is; and `colorset_allowed_t::apply_allowed` applied to the basic
colour set, which returns whether the surviving set is accepted and the set it
leaves in `Allowed`. -/
structure Externals where
  ANCIENT : Int
  MC16 : Int
  MC17 : Int
  FUTURE : Int
  clear : simpleBlock → simpleBlock
  newBlock : simpleBlock
  apply_allowed : colorset_allowed_t → List Bool → Bool × colorset_allowed_t

/-! ## Palette indices -/

/-- Modelled from the spec: the helper is declared in a header that is not among
the sources. The 256 entries are 64 base colours in 4 shade depths, and
`getBaseColorInARGB32` reads entry `128 + base` for base colour `base`: the
base colour of an index is its remainder by 64. -/
def index2baseColor (index : Nat) : Nat := index % 64

/-- Modelled from the spec: the helper is declared in a header that is not among
the sources; the shade depth of an index is its quotient by 64. -/
def index2depth (index : Nat) : Nat := index / 64

/-- Modelled from the spec: the helper is declared in a header that is not among
the sources; a map colour is `4 * base + depth`. -/
def index2mapColor (index : Nat) : Nat := 4 * index2baseColor index + index2depth index

/-- Modelled from the spec: the helper is declared in a header that is not among
the sources; the base colour of a map colour. -/
def mapColor2baseColor (mapColor : Nat) : Nat := mapColor / 4

/-- Modelled from the spec: the helper is declared in a header that is not among
the sources; the palette index of a map colour. -/
def mapColor2Index (mapColor : Nat) : Nat := 64 * (mapColor % 4) + mapColor / 4

/-! ## State -/

/-- The static members of `TokiSlopeCraft`, shared by every kernel. -/
structure Statics where
  mapType : mapTypes
  mcVer : Int
  needFindSide : Bool
  blockPalette : List simpleBlock
  Allowed : colorset_allowed_t

/-- The members of one kernel. `gaRawImage` is the image held by `GAConverter`,
`log` the calls made so far through the callbacks of this kernel, `colorHash`
the `Result` map colour filed under each ARGB colour of `ditheredImage`. -/
structure TokiSlopeCraft where
  kernelStep : step
  rawImage : EImage
  gaRawImage : EImage
  mapPic : List Nat
  schem : Schem
  log : List Report
  ditheredImage : EImage := EImage.zero 0 0
  colorHash : List (Nat × Nat) := []

/-- The static members, the kernel a method is called on, and the other kernels
of `kernel_hash_set`. The constructor registers every kernel in the set and the
destructor removes it, so the set is `self` together with `others`. -/
structure World where
  st : Statics
  self : TokiSlopeCraft
  others : List TokiSlopeCraft

/-- The kernel after a call of `reportError` or `reportWorkingStatue`. -/
def TokiSlopeCraft.report (k : TokiSlopeCraft) (r : Report) : TokiSlopeCraft :=
  { k with log := k.log ++ [r] }

/-! ## setType -/

/-- Whether the map can be built in vanilla survival: `mapType != FileOnly`. -/
def isVanilla (mapType : mapTypes) : Bool := mapType != mapTypes.FileOnly

/-- Whether the map is a flat one: `mapType == Flat || mapType == Wall`. -/
def isFlat (mapType : mapTypes) : Bool := mapType == mapTypes.Flat || mapType == mapTypes.Wall

/-- The table `baseColorVer` of `setType`: FUTURE everywhere, then ANCIENT on
0..51, MC16 on 52..58 and MC17 on 59..61. -/
def baseColorVer (D : Externals) (b : Nat) : Int :=
  if 59 ≤ b ∧ b < 59 + 3 then D.MC17
  else if 52 ≤ b ∧ b < 52 + 7 then D.MC16
  else if b < 52 then D.ANCIENT
  else D.FUTURE

/-- The vector after `resize(n)`: cut to `n` entries, or filled up with
default-constructed ones. -/
def resize (D : Externals) (v : List simpleBlock) (n : Nat) : List simpleBlock :=
  (v ++ List.replicate (n - v.length) D.newBlock).take n

/-- Whether `find(':')` finds a colon in the string. -/
def hasColon (s : String) : Bool := s.data.contains ':'

/-- The entry stored for a non-null block: the copy of the block, with
`minecraft:` put before an `id` without a colon, an empty `idOld` replaced by
the stored `id`, and `minecraft:` put before a non-empty `idOld` without a
colon. -/
def storeBlock (b : simpleBlock) : simpleBlock :=
  let b1 := if hasColon b.id then b else { b with id := "minecraft:" ++ b.id }
  let b2 := if b1.idOld.isEmpty then { b1 with idOld := b1.id } else b1
  if b2.idOld.length > 0 ∧ ¬ hasColon b2.idOld then { b2 with idOld := "minecraft:" ++ b2.idOld }
  else b2

/-- The block palette after the first loop of `setType`: for `i` in 0..63 the
old entry cleared when `palettes[i]` is null, the stored copy otherwise. -/
def fillPalette (D : Externals) (old : List simpleBlock)
    (palettes : Nat → Option simpleBlock) : List simpleBlock :=
  (List.range 64).map fun i =>
    match palettes i with
    | none => D.clear ((resize D old 64).getD i D.newBlock)
    | some b => storeBlock b

/-- The body of the second loop of `setType`: the value `MIndex[index]` ends
with, each exclusion rule in the order of the source. -/
def MIndexAt (D : Externals) (mapType : mapTypes) (mcVer : Int)
    (allowedBaseColor : Nat → Bool) (blockPalette : List simpleBlock) (index : Nat) : Bool :=
  if !allowedBaseColor (index2baseColor index) then false
  else if index2baseColor index == 0 then false
  else if mcVer < baseColorVer D (index2baseColor index) then false
  else if (blockPalette.getD (index2baseColor index) D.newBlock).id.isEmpty then false
  else if isVanilla mapType && index2depth index ≥ 3 then false
  else if index2baseColor index == 12 && mapType != mapTypes.Wall then
    if isFlat mapType && index2depth index != 2 then false else true
  else
    if isFlat mapType && index2depth index != 1 then false else true

/-- The array `MIndex` that `setType` hands to `apply_allowed`. -/
def setType_MIndex (D : Externals) (w : World) (type : mapTypes) (ver : Int)
    (allowedBaseColor : Nat → Bool) (palettes : Nat → Option simpleBlock) : List Bool :=
  (List.range 256).map
    (MIndexAt D type ver allowedBaseColor (fillPalette D w.st.blockPalette palettes))

/-- The text `setType` hands to `reportError` when the colours are too few: the
count of the set `apply_allowed` left and the map colours in it. -/
def tooFewMsg (A : colorset_allowed_t) : String :=
  (List.range A.color_count).foldl (fun msg idx => msg ++ (toString (A.Map idx) ++ ", "))
    ("Too few usable color(s) : only " ++ toString A.color_count ++ " colors\n"
      ++ "Avaliable base color(s) : ")

/-- The method `TokiSlopeCraft::setType(type, ver, allowedBaseColor, palettes)`
called on `w.self`: the value returned and the state left. -/
def setType (D : Externals) (w : World) (type : mapTypes) (ver : Int)
    (allowedBaseColor : Nat → Bool) (palettes : Nat → Option simpleBlock) : Bool × World :=
  let blockPalette := fillPalette D w.st.blockPalette palettes
  let self1 := w.self.report (.workingStatue .collectingColors)
  let MIndex := setType_MIndex D w type ver allowedBaseColor palettes
  let applied := D.apply_allowed w.st.Allowed MIndex
  let st : Statics :=
    { mapType := type, mcVer := ver, needFindSide := type == mapTypes.Slope,
      blockPalette := blockPalette, Allowed := applied.2 }
  if !applied.1 then
    (false, { st := st,
              self := self1.report (.error .USEABLE_COLOR_TOO_FEW (tooFewMsg applied.2)),
              others := w.others })
  else
    (true, { st := st,
             self := { self1.report (.workingStatue .none) with kernelStep := step.wait4Image },
             others := w.others.map fun k => { k with kernelStep := step.wait4Image } })

/-! ## setRawImage -/

/-- The method `configGAConverter`: the genetic converter receives the raw image
(the grey table it also refreshes is no member of the kernel). -/
def configGAConverter (k : TokiSlopeCraft) : TokiSlopeCraft :=
  { k with gaRawImage := k.rawImage }

/-- The method `TokiSlopeCraft::setRawImage(const EImage &)`. -/
def setRawImage (k : TokiSlopeCraft) (_rawimg : EImage) : TokiSlopeCraft :=
  if k.kernelStep < step.wait4Image then
    k.report (.error .HASTY_MANIPULATION
      ("You can only import the raw image count after you set the map "
        ++ "type and gameversion"))
  else if _rawimg.size ≤ 0 then
    k.report (.error .EMPTY_RAW_IMAGE
      "The size of your raw image is 0. You loaded an empty image.")
  else
    configGAConverter { k with rawImage := _rawimg, kernelStep := step.convertionReady }

/-- The overload `setRawImage(src, rows, cols)`: the matrix mapped on `src`. -/
def setRawImageMap (k : TokiSlopeCraft) (src : List Nat) (rows cols : Nat) : TokiSlopeCraft :=
  setRawImage k { rows := rows, cols := cols, data := src.take (rows * cols) }

/-! ## Queries -/

/-- The value an integer has after conversion to a 32-bit `int`. -/
def wrapInt32 (n : Int) : Int := (n + 2 ^ 31) % 2 ^ 32 - 2 ^ 31

/-- The method `getColorCount`, which returns a `uint16_t`. -/
def getColorCount (st : Statics) (k : TokiSlopeCraft) : TokiSlopeCraft × Nat :=
  if k.kernelStep < step.wait4Image then
    (k.report (.error .HASTY_MANIPULATION
      ("You can only query for avaliable color count after you set "
        ++ "the map type and gameversion")), 0)
  else (k, st.Allowed.color_count % 2 ^ 16)

/-- The method `getImageRows`. -/
def getImageRows (k : TokiSlopeCraft) : TokiSlopeCraft × Int :=
  if k.kernelStep < step.convertionReady then
    (k.report (.error .HASTY_MANIPULATION
      "You can call getImageRows only after you imported the raw image."), -1)
  else (k, wrapInt32 k.rawImage.rows)

/-- The method `getImageCols`. -/
def getImageCols (k : TokiSlopeCraft) : TokiSlopeCraft × Int :=
  if k.kernelStep < step.convertionReady then
    (k.report (.error .HASTY_MANIPULATION
      "You can call getImageRows only after you imported the raw image."), -1)
  else (k, wrapInt32 k.rawImage.cols)

/-- The method `sizePic`. -/
def sizePic (k : TokiSlopeCraft) (dim : Int) : Nat :=
  if dim = 0 then k.rawImage.rows
  else if dim = 1 then k.rawImage.cols
  else k.rawImage.size

/-- The method `getConovertedImage`, given the ARGB table it computes from the
basic colour set: the kernel after the call and the image returned, `none` when
the call does not return. `mapPic` is stored like the raw image, column by
column. The loop counters are `short`: no value of `r` reaches 32768 rows, so
with an image of at least one row that has 32768 rows or columns or more the
loops run past the last `short` and read outside the image, or never end. -/
def getConovertedImage (argbLUT : Nat → Nat) (k : TokiSlopeCraft) :
    TokiSlopeCraft × Option EImage :=
  if k.kernelStep < step.converted then
    (k.report (.error .HASTY_MANIPULATION
      "You can get the converted image only after you converted a map."),
     some (EImage.zero (sizePic k 0) (sizePic k 1)))
  else if sizePic k 0 ≠ 0 ∧ (32768 ≤ sizePic k 0 ∨ 32768 ≤ sizePic k 1) then (k, none)
  else
    (k, some { rows := sizePic k 0, cols := sizePic k 1,
               data := (List.range (sizePic k 0 * sizePic k 1)).map fun i =>
                 if mapColor2baseColor (k.mapPic.getD i 0) == 0 then 0
                 else argbLUT (mapColor2Index (k.mapPic.getD i 0)) })

/-- The method `get3DSize`. An argument is the cell a pointer leads to, `none`
for a null pointer; the result is the three cells after the call. -/
def get3DSize (k : TokiSlopeCraft) (x y z : Option Int) : Option Int × Option Int × Option Int :=
  if k.kernelStep < step.builded then (x, y, z)
  else (x.map fun _ => wrapInt32 k.schem.x_range,
        y.map fun _ => wrapInt32 k.schem.y_range,
        z.map fun _ => wrapInt32 k.schem.z_range)

/-- The method `getHeight`. -/
def getHeight (k : TokiSlopeCraft) : Int :=
  if k.kernelStep < step.builded then -1 else wrapInt32 k.schem.y_range

/-- The method `getXRange`. -/
def getXRange (k : TokiSlopeCraft) : Int :=
  if k.kernelStep < step.builded then -1 else wrapInt32 k.schem.x_range

/-- The method `getZRange`; the source returns `schem.x_range()`. -/
def getZRange (k : TokiSlopeCraft) : Int :=
  if k.kernelStep < step.builded then -1 else wrapInt32 k.schem.x_range

/-- The vector after `v[i]++` (unchanged when `i` is no index of it). -/
def incrAt : List Int → Nat → List Int
  | [], _ => []
  | v :: vs, 0 => (v + 1) :: vs
  | v :: vs, i + 1 => v :: incrAt vs i

/-- The overload `getBlockCounts(std::vector<int64_t> *dest)`: the vector after
the call (`none` for a null pointer) and the value returned, the `int` total. -/
def getBlockCountsVec (k : TokiSlopeCraft) (dest : Option (List Int)) :
    Option (List Int) × Int :=
  match dest with
  | none => (none, -1)
  | some d =>
    if k.kernelStep < step.builded then (some d, -1)
    else
      let counts := k.schem.data.foldl
        (fun acc v => if v ≠ 0 then incrAt acc (v - 1) else acc) (List.replicate 64 0)
      (some counts, counts.foldl (fun total c => wrapInt32 (total + c)) 0)

/-- The overload `getBlockCounts(int *total, int detail[64])`: the two cells
after the call, `none` for a null pointer. -/
def getBlockCountsDetail (k : TokiSlopeCraft) (total : Option Int) (detail : Option (List Int)) :
    Option Int × Option (List Int) :=
  let r := if total.isSome then getBlockCountsVec k (some []) else (some [], 0)
  let temp := r.1.getD []
  (total.map fun _ => wrapInt32 r.2,
   detail.map fun d => (temp.map wrapInt32) ++ d.drop temp.length)

/-- The overload `getBlockCounts()`: the number of non-zero voxels, counted in
an `int`. -/
def getBlockCounts (k : TokiSlopeCraft) : Int :=
  if k.kernelStep < step.builded then -1
  else k.schem.data.foldl (fun total v => if v ≠ 0 then wrapInt32 (total + 1) else total) 0

/-! ## decreaseStep and the data queries -/

/-- The method `TokiSlopeCraft::decreaseStep`. -/
def decreaseStep (k : TokiSlopeCraft) (_step : step) : TokiSlopeCraft :=
  if k.kernelStep ≤ _step then k else { k with kernelStep := _step }

/-- The method `getAvailableColors`. A destination is the array a pointer leads
to, `none` for a null pointer; the result is the kernel and the three
destinations after the call. `rgb255 idx c` stands for the float
`Allowed.RGB(idx, c) * 255` converted to an integer. -/
def getAvailableColors (st : Statics) (rgb255 : Nat → Nat → Nat) (k : TokiSlopeCraft)
    (ARGBDest mapColorDest : Option (List Nat)) (num : Option Int) :
    TokiSlopeCraft × Option (List Nat) × Option (List Nat) × Option Int :=
  let k1 := if num.isSome then (getColorCount st k).1 else k
  let num1 := num.map fun _ => ((getColorCount st k).2 : Int)
  let mapDest := mapColorDest.map fun d =>
    (List.range st.Allowed.color_count).foldl (fun d idx => d.set idx (st.Allowed.Map idx)) d
  let argbDest := ARGBDest.map fun d =>
    (List.range st.Allowed.color_count).foldl (fun d idx =>
      let a := if mapColor2baseColor (st.Allowed.Map idx) ≠ 0 then 255 else 0
      d.set idx (((a <<< 24) ||| (rgb255 idx 0 <<< 16) ||| (rgb255 idx 1 <<< 8)
        ||| rgb255 idx 2) % 2 ^ 32)) d
  (k1, argbDest, mapDest, num1)

/-- The map colour `colorHash.find(argb)->second.Result` (0 stands for the
undefined result of a colour that is not in the table). -/
def hashResult (k : TokiSlopeCraft) (argb : Nat) : Nat := (k.colorHash.lookup argb).getD 0

/-- The method `getConvertedMap`: the kernel, the cells `rows` and `cols` lead
to and the array `dst` after the call. The step is tested only inside
`getImageRows` and `getImageCols`, which the method calls for `rows`, for
`cols`, twice for the extents of the mapped array and in the loop tests. -/
def getConvertedMap (k : TokiSlopeCraft) (rows cols : Option Int) (dst : List Nat) :
    TokiSlopeCraft × Option Int × Option Int × List Nat :=
  let k1 := if rows.isSome then (getImageRows k).1 else k
  let k2 := if cols.isSome then (getImageCols k1).1 else k1
  let k3 := (getImageCols (getImageRows k2).1).1
  let rows1 := rows.map fun _ => (getImageRows k).2
  let cols1 := cols.map fun _ => (getImageCols k).2
  if k.kernelStep < step.convertionReady then
    ((getImageRows k3).1, rows1, cols1, dst)
  else
    (k, rows1, cols1,
      (List.range (getImageRows k).2.toNat).foldl (fun d r =>
        (List.range (getImageCols k).2.toNat).foldl (fun d c =>
          d.set (r + c * (getImageRows k).2.toNat)
            (hashResult k (k.ditheredImage.data.getD (r + c * k.ditheredImage.rows) 0))) d) dst)

/-- The method `getBuild`: the three cells after the call and the voxel data the
returned pointer leads to. -/
def getBuild (k : TokiSlopeCraft) (xSize ySize zSize : Option Int) :
    (Option Int × Option Int × Option Int) × List Nat :=
  ((xSize.map fun _ => getXRange k, ySize.map fun _ => getHeight k,
    zSize.map fun _ => getZRange k), k.schem.data)

/-! ## The dithering kernels -/

/-- The constant `DitherMapLR`; every entry is a multiple of 1/16, which a
`float` holds exactly. -/
def DitherMapLR : List (List ℚ) :=
  [[0 / 16, 0 / 16, 7 / 16], [3 / 16, 5 / 16, 1 / 16]]

/-- The constant `DitherMapRL`. -/
def DitherMapRL : List (List ℚ) :=
  [[7 / 16, 0 / 16, 0 / 16], [1 / 16, 5 / 16, 3 / 16]]

/-! ## VisualCraft: TokiVC::build -/

/-- Modelled from the spec: `VCL_report_type_t` is declared in VisualCraftL.h,
which is not among the sources; `build` reports with `error`. -/
inductive VCL_report_type_t where
  | information
  | warning
  | error
  deriving DecidableEq, Repr

/-- The `dir_handler` of one build: the extents it gives the schem and the
voxel it assigns to pixel `(r, c)` at layer `depth`. -/
structure dir_handler where
  range_xyz : Nat × Nat × Nat
  coordinate_of : Nat → Nat → Nat → Nat × Nat × Nat

/-- Modelled from the spec: what `TokiVC::build` uses and the sources do not
define. The two enumerators of `VCL_Kernel_step` it names, as the integers they
stand for; the `dir_handler` made from the exposed face, the rows and columns
of the image and the number of layers; and the full id of the block at an
address. -/
structure VCExternals where
  VCL_wait_for_build : Int
  VCL_built : Int
  dirh : Nat → Nat → Nat → Nat → dir_handler
  full_id : Nat → String

/-- An entry of `LUT_basic_color_idx_to_blocks`: one block, or the blocks of
the layers. A block is the address of a `VCL_block`. -/
inductive BlockVariant where
  | single (blk : Nat)
  | layers (blks : List Nat)
  deriving DecidableEq, Repr

/-- The static members of `TokiVC` that `build` reads. `blocks_allowed` maps the
address of an allowed block to its id in the schem. -/
structure VCStatics where
  exposed_face : Nat
  max_block_layers : Nat
  LUT_basic_color_idx_to_blocks : Nat → BlockVariant
  blocks_allowed : List (Nat × Nat)

/-- The schem of a `TokiVC`: its extents, its block id list, and its voxels as
the writes made since the schem was last filled with 0, the newest first. -/
structure VCSchem where
  x_range : Nat
  y_range : Nat
  z_range : Nat
  block_ids : List (Option String)
  voxels : List ((Nat × Nat × Nat) × Nat)
  deriving DecidableEq, Repr

/-- The voxel `schem(x, y, z)`. -/
def VCSchem.get (s : VCSchem) (coord : Nat × Nat × Nat) : Nat := (s.voxels.lookup coord).getD 0

/-- The schem after `schem(x, y, z) = blk_id`. -/
def VCSchem.write (s : VCSchem) (coord : Nat × Nat × Nat) (blk_id : Nat) : VCSchem :=
  { s with voxels := (coord, blk_id) :: s.voxels }

/-- The members of a `TokiVC` that `build` touches: the step, the converted
image as `img_cvter` gives it (rows, columns and the colour ids column by
column), the schem, and the calls of `VCL_report` so far. -/
structure TokiVC where
  _step : Int
  img_rows : Nat
  img_cols : Nat
  color_id : List Nat
  schem : VCSchem
  reports : List (VCL_report_type_t × String)

/-- The block id list `fill_schem_blocklist_no_lock` hands to the schem: one
null entry per allowed block, then the full id of each block written at its
id. The write `blk_ids[pair.second]` is unchecked: the result is `none` when an
id is not below the number of allowed blocks and the write leaves the vector. -/
def fill_schem_blocklist_no_lock (E : VCExternals) (S : VCStatics) :
    Option (List (Option String)) :=
  S.blocks_allowed.foldl (fun ids pair =>
    match ids with
    | none => none
    | some l => if pair.2 < l.length then some (l.set pair.2 (some (E.full_id pair.1))) else none)
    (some (List.replicate S.blocks_allowed.length none))

/-- The blocks `blockpp[0 .. depth_current - 1]` of a table entry. -/
def chosenBlocks : BlockVariant → List Nat
  | .single blk => [blk]
  | .layers blks => blks

/-- The block chosen for pixel `(r, c)` at layer `depth`. -/
def blockAt (S : VCStatics) (t : TokiVC) (r c depth : Nat) : Nat :=
  (chosenBlocks (S.LUT_basic_color_idx_to_blocks (t.color_id.getD (r + c * t.img_rows) 0))).getD
    depth 0

/-- The pixels and layers the three loops of `build` visit, in their order. -/
def buildPositions (S : VCStatics) (t : TokiVC) : List (Nat × Nat × Nat) :=
  (List.range t.img_rows).flatMap fun r =>
    (List.range t.img_cols).flatMap fun c =>
      (List.range (chosenBlocks (S.LUT_basic_color_idx_to_blocks
        (t.color_id.getD (r + c * t.img_rows) 0))).length).map fun depth => (r, c, depth)

/-- The loops of `build` over the positions still to visit: the block whose
lookup in `blocks_allowed` failed, if one did, and the schem at that point. -/
def buildCells (S : VCStatics) (t : TokiVC) (dirh : dir_handler) :
    List (Nat × Nat × Nat) → VCSchem → Option Nat × VCSchem
  | [], sch => (none, sch)
  | (r, c, depth) :: rest, sch =>
    match S.blocks_allowed.lookup (blockAt S t r c depth) with
    | none => (some (blockAt S t r c depth), sch)
    | some blk_id => buildCells S t dirh rest (sch.write (dirh.coordinate_of r c depth) blk_id)

/-- The text a pointer is formatted to: `0x` and the address in hexadecimal. -/
def formatPointer (address : Nat) : String := "0x" ++ String.mk (Nat.toDigits 16 address)

/-- The text of the internal error of `build`. -/
def missingBlockMsg (E : VCExternals) (blkp : Nat) : String :=
  "Failed to find VCL_block at address " ++ formatPointer blkp ++ " named " ++ E.full_id blkp
    ++ " in allowed blocks. This is an internal error."

/-- The method `TokiVC::build`: the value returned and the kernel left, `none`
when filling the block id list writes outside its vector. -/
def TokiVC.build (E : VCExternals) (S : VCStatics) (t : TokiVC) : Option (Bool × TokiVC) :=
  if t._step < E.VCL_wait_for_build then
    some (false, { t with reports := t.reports ++
      [(VCL_report_type_t.error, "Trying to build before without image converted.")] })
  else
    let dirh := E.dirh S.exposed_face t.img_rows t.img_cols S.max_block_layers
    match fill_schem_blocklist_no_lock E S with
    | none => none
    | some ids =>
      let sch0 : VCSchem :=
        { x_range := dirh.range_xyz.1, y_range := dirh.range_xyz.2.1,
          z_range := dirh.range_xyz.2.2, block_ids := ids, voxels := [] }
      match buildCells S t dirh (buildPositions S t) sch0 with
      | (some blkp, sch) =>
        some (false, { t with schem := sch, reports := t.reports ++
          [(VCL_report_type_t.error, missingBlockMsg E blkp)] })
      | (none, sch) => some (true, { t with schem := sch, _step := E.VCL_built })

/-- The id `blocks_allowed` assigns to the block chosen at a position (0 when
the block is not allowed). -/
def assignedId (S : VCStatics) (t : TokiVC) (p : Nat × Nat × Nat) : Nat :=
  (S.blocks_allowed.lookup (blockAt S t p.1 p.2.1 p.2.2)).getD 0

/-! ## SlopeCraftMain: MainWindow::showError -/

/-- Modelled from the spec: the error flags `MainWindow::showError` switches on
(the enumeration it uses is declared in a header that is not among the
sources). -/
inductive MainWindowErrorFlag where
  | NO_ERROR_OCCUR
  | EMPTY_RAW_IMAGE
  | DEPTH_3_IN_VANILLA_MAP
  | HASTY_MANIPULATION
  | LOSSYCOMPRESS_FAILED
  | MAX_ALLOWED_HEIGHT_LESS_THAN_14
  | PARSING_COLORMAP_HSV_FAILED
  | PARSING_COLORMAP_Lab_FAILED
  | PARSING_COLORMAP_XYZ_FAILED
  | PARSING_COLORMAP_RGB_FAILED
  | USEABLE_COLOR_TO_LITTLE
  deriving DecidableEq, Repr

/-- What `showError` does to the window, in order. `exitClicked` is
`emit ui->Exit->clicked()`; the constructor connects that signal to
`MainWindow::close`. -/
inductive UiAction where
  | warningBox
  | criticalBox
  | exitClicked
  | updateEnables
  deriving DecidableEq, Repr

/-- The value `isFatal` has after the switch of `showError`. -/
def showError_isFatal : MainWindowErrorFlag → Bool
  | .PARSING_COLORMAP_HSV_FAILED => true
  | .PARSING_COLORMAP_Lab_FAILED => true
  | .PARSING_COLORMAP_XYZ_FAILED => true
  | .PARSING_COLORMAP_RGB_FAILED => true
  | _ => false

/-- The method `MainWindow::showError`, without the title and the text of the
message box. -/
def showError (error : MainWindowErrorFlag) : List UiAction :=
  if error = MainWindowErrorFlag.NO_ERROR_OCCUR then []
  else if showError_isFatal error then [UiAction.warningBox, UiAction.updateEnables]
  else [UiAction.criticalBox, UiAction.exitClicked, UiAction.updateEnables]

/-! ## trySkipStep -/

/-- The method `TokiSlopeCraft::trySkipStep`. -/
def trySkipStep (st : Statics) (k : TokiSlopeCraft) (s : step) : TokiSlopeCraft :=
  if k.kernelStep ≥ s then k
  else if st.Allowed.color_count ≠ 0 ∧ st.blockPalette.length ≠ 0 then
    { k with kernelStep := step.wait4Image }
  else k

/-! ## SlopeCraftMain: MainWindow::preProcess -/

/-- The alpha channel of a 32-bit `QRgb`. -/
def qAlpha (rgb : Nat) : Nat := (rgb / 2 ^ 24) % 256

/-- The red channel of a `QRgb`. -/
def qRed (rgb : Nat) : Nat := (rgb / 2 ^ 16) % 256

/-- The green channel of a `QRgb`. -/
def qGreen (rgb : Nat) : Nat := (rgb / 2 ^ 8) % 256

/-- The blue channel of a `QRgb`. -/
def qBlue (rgb : Nat) : Nat := rgb % 256

/-- The opaque `QRgb` of three channels, `qRgb(r, g, b)`. -/
def qRgb (r g b : Nat) : Nat := 255 * 2 ^ 24 + (r % 256) * 2 ^ 16 + (g % 256) * 2 ^ 8 + b % 256

/-- The body of the inner loop of `preProcess`: the value `CL[c]` ends with.
`ComposeColor` is declared in a header that is not among the sources. -/
def preProcessPixel (ComposeColor : Nat → Nat → Nat) (pureTpStrategy halfTpStrategy : Char)
    (BGC : Nat) (px : Nat) : Nat :=
  if qAlpha px ≥ 255 then px
  else if qAlpha px = 0 ∧ pureTpStrategy = 'B' then BGC
  else if qAlpha px = 0 ∧ pureTpStrategy = 'A' then 0
  else if halfTpStrategy = 'B' then BGC
  else if halfTpStrategy = 'C' then ComposeColor px BGC
  else if halfTpStrategy = 'R' then qRgb (qRed px) (qGreen px) (qBlue px)
  else px

/-- The method `MainWindow::preProcess`: the scan lines of `rawPic` after the
call. -/
def preProcess (ComposeColor : Nat → Nat → Nat) (pureTpStrategy halfTpStrategy : Char)
    (BGC : Nat) (rawPic : List (List Nat)) : List (List Nat) :=
  if pureTpStrategy ≠ 'W' ∧ halfTpStrategy ≠ 'W' then
    rawPic.map fun CL => CL.map (preProcessPixel ComposeColor pureTpStrategy halfTpStrategy BGC)
  else rawPic

/-! ## SlopeCraftMain: the map files of an export -/

/-- The value `ceil(x / 128.0)`; the division by 128 is exact in floating point
for the extents of an image. -/
def ceilDiv128 (x : Int) : Int := (x + 127) / 128

/-- The method `on_ExData_clicked`, given the rows and columns the kernel
returns: the numbers shown as map rows, map columns and map count. -/
def on_ExData_clicked (imageRows imageCols : Int) : Int × Int × Int :=
  (ceilDiv128 imageRows, ceilDiv128 imageCols, ceilDiv128 imageRows * ceilDiv128 imageCols)

/-- What `ShowDataFileName` shows: `map_i.dat`, `map_i.dat~map_j.dat`, or the
notice that the start index is unusable. -/
inductive ShownFileName where
  | single (index : Int)
  | range (first last : Int)
  | invalid
  deriving DecidableEq, Repr

/-- The method `on_InputDataIndex_textChanged`, given the rows and columns the
kernel returns and the integer the text parses to (`none` when it does not
parse): the name shown and whether `ExportData` is enabled. -/
def on_InputDataIndex_textChanged (imageRows imageCols : Int) (indexStart : Option Int) :
    ShownFileName × Bool :=
  match indexStart with
  | none => (ShownFileName.invalid, false)
  | some n =>
    if n ≥ 0 then
      if ceilDiv128 imageRows = 1 ∧ ceilDiv128 imageCols = 1 then (ShownFileName.single n, true)
      else (ShownFileName.range n (n + ceilDiv128 imageRows * ceilDiv128 imageRows - 1), true)
    else (ShownFileName.invalid, false)

/-! ## VisualCraft: zipped_folder::merge_from_base -/

/-- The bytes of a file of a resource pack. -/
abbrev zipped_file := List Nat

/-- Modelled from the spec: `zipped_folder` is declared in Resource_tree.h, which
is not among the sources. A folder holds a map from names to files and a map
from names to folders; a map is the list of its entries, looked up by name. -/
inductive zipped_folder where
  | mk (files : List (String × zipped_file)) (subfolders : List (String × zipped_folder))

/-- The member `files`. -/
def zipped_folder.files : zipped_folder → List (String × zipped_file)
  | .mk files _ => files

/-- The member `subfolders`. -/
def zipped_folder.subfolders : zipped_folder → List (String × zipped_folder)
  | .mk _ subfolders => subfolders

/-- The map after `find->second = v` at the entry named `k`. -/
def replaceEntry {α : Type} : List (String × α) → String → α → List (String × α)
  | [], _, _ => []
  | (k1, v1) :: rest, k, v =>
    if k1 = k then (k1, v) :: rest else (k1, v1) :: replaceEntry rest k v

/-- The first loop of `merge_from_base(const zipped_folder &)`: a file of the
base is emplaced when the receiver has no file of that name. -/
def mergeFiles (files : List (String × zipped_file)) (base : List (String × zipped_file)) :
    List (String × zipped_file) :=
  base.foldl (fun acc it =>
    match acc.lookup it.1 with
    | none => acc ++ [it]
    | some _ => acc) files

/-- The call `files.merge(std::move(source))` of the standard map: the entries
of the source whose name the receiver does not have go to the receiver. -/
def mapMerge (files : List (String × zipped_file)) (source : List (String × zipped_file)) :
    List (String × zipped_file) :=
  files ++ source.filter fun it => (files.lookup it.1).isNone

mutual
/-- The method `zipped_folder::merge_from_base(const zipped_folder &)`: the
receiver after the call. The base is `const` and stays as it is. -/
def merge_from_base : zipped_folder → zipped_folder → zipped_folder
  | .mk files subfolders, .mk baseFiles baseSubfolders =>
    .mk (mergeFiles files baseFiles) (mergeSubfolders subfolders baseSubfolders)
/-- The second loop of `merge_from_base(const zipped_folder &)`. -/
def mergeSubfolders :
    List (String × zipped_folder) → List (String × zipped_folder) → List (String × zipped_folder)
  | acc, [] => acc
  | acc, (name, sub) :: rest =>
    match acc.lookup name with
    | none => mergeSubfolders (acc ++ [(name, sub)]) rest
    | some found => mergeSubfolders (replaceEntry acc name (merge_from_base found sub)) rest
end

mutual
/-- The method `zipped_folder::merge_from_base(zipped_folder &&)`: the receiver
after the call. -/
def merge_from_base_move : zipped_folder → zipped_folder → zipped_folder
  | .mk files subfolders, .mk baseFiles baseSubfolders =>
    .mk (mapMerge files baseFiles) (mergeSubfoldersMove subfolders baseSubfolders)
/-- The loop of `merge_from_base(zipped_folder &&)`. -/
def mergeSubfoldersMove :
    List (String × zipped_folder) → List (String × zipped_folder) → List (String × zipped_folder)
  | acc, [] => acc
  | acc, (name, sub) :: rest =>
    match acc.lookup name with
    | none => mergeSubfoldersMove (acc ++ [(name, sub)]) rest
    | some found =>
      mergeSubfoldersMove (replaceEntry acc name (merge_from_base_move found sub)) rest
end

mutual
/-- Whether no two subfolders of a folder have the same name, at every depth:
what the map type of `subfolders` guarantees. -/
def zipped_folder.uniqueNames : zipped_folder → Bool
  | .mk _ subfolders =>
    decide ((subfolders.map Prod.fst).Nodup) && uniqueNamesIn subfolders
/-- Whether every folder of the list has unique names at every depth. -/
def uniqueNamesIn : List (String × zipped_folder) → Bool
  | [] => true
  | (_, sub) :: rest => sub.uniqueNames && uniqueNamesIn rest
end

/-- The folder at a path below a folder, `none` when there is none. -/
def getFolder : zipped_folder → List String → Option zipped_folder
  | f, [] => some f
  | f, name :: path =>
    match f.subfolders.lookup name with
    | none => none
    | some sub => getFolder sub path

/-- The file of a name in the folder at a path, `none` when there is none. -/
def getFile (f : zipped_folder) (path : List String) (name : String) : Option zipped_file :=
  match getFolder f path with
  | none => none
  | some g => g.files.lookup name

/-- The loop over the subfolders of a base, for a given merge of two folders. -/
def mergeSubfoldersWith (m : zipped_folder → zipped_folder → zipped_folder) :
    List (String × zipped_folder) → List (String × zipped_folder) → List (String × zipped_folder)
  | acc, [] => acc
  | acc, (name, sub) :: rest =>
    match acc.lookup name with
    | none => mergeSubfoldersWith m (acc ++ [(name, sub)]) rest
    | some found => mergeSubfoldersWith m (replaceEntry acc name (m found sub)) rest

/-- The folder of a name after a merge: the folder of the receiver merged with
the folder of the base, or the one of the two there is. -/
def combineFolders (m : zipped_folder → zipped_folder → zipped_folder) :
    Option zipped_folder → Option zipped_folder → Option zipped_folder
  | none, b => b
  | some a, none => some a
  | some a, some b => some (m a b)

/-- What makes a function a merge with priority for the receiver: the files and
the subfolders of the result, name by name. -/
def IsMerge (m : zipped_folder → zipped_folder → zipped_folder) : Prop :=
  (∀ a b k, (m a b).files.lookup k = (a.files.lookup k).or (b.files.lookup k)) ∧
  (∀ a b, b.uniqueNames = true → ∀ n, (m a b).subfolders.lookup n =
    combineFolders m (a.subfolders.lookup n) (b.subfolders.lookup n))

/-! ## The missing parts, for evaluation -/

/-- Modelled from the spec: the body of `AbstractBlock::clear` is not among the
sources; its declaration in SlopeCraftL.h documents it as `set this block to
air`. The block takes the id of air and loses its other attributes. -/
def clearToAir (b : simpleBlock) : simpleBlock :=
  { b with id := "minecraft:air", version := 0, idOld := "", needGlass := false,
           doGlow := false, endermanPickable := false, burnable := false,
           nameZH := "", nameEN := "" }

/-- Modelled from the spec: `apply_allowed` is not among the sources. The set it
leaves holds the map colours of the surviving indices, in index order; it is
refused when it is empty or has fewer than `floor` entries. -/
def applyAllowedModel (floor : Nat) (_old : colorset_allowed_t) (MIndex : List Bool) :
    Bool × colorset_allowed_t :=
  let kept := (List.range 256).filter fun i => MIndex.getD i false
  (decide (kept.length ≠ 0 ∧ floor ≤ kept.length), { color_id := kept.map index2mapColor })

/-- Modelled from the spec: one choice of the parts that are not among the
sources, on which the definitions can be evaluated. The game versions stand
for 0 (ANCIENT), 16, 17 and 255 (FUTURE); a new block has every attribute
empty. -/
def sclExternals (floor : Nat) : Externals :=
  { ANCIENT := 0, MC16 := 16, MC17 := 17, FUTURE := 255,
    clear := clearToAir,
    newBlock := { id := "", version := 0, idOld := "", needGlass := false, doGlow := false,
                  endermanPickable := false, burnable := false, nameZH := "", nameEN := "",
                  imageFilename := "" },
    apply_allowed := applyAllowedModel floor }

/-! ## Sample data -/

/-- The kernel the constructor leaves: step `nothing`, an empty raw image. -/
def TokiSlopeCraft.new : TokiSlopeCraft :=
  { kernelStep := step.nothing, rawImage := EImage.zero 0 0, gaRawImage := EImage.zero 0 0,
    mapPic := [], schem := { x_range := 0, y_range := 0, z_range := 0, data := [] }, log := [] }

/-- A block given without a namespace. -/
def stoneBlock : simpleBlock :=
  { id := "stone", version := 0, idOld := "", needGlass := false, doGlow := false,
    endermanPickable := false, burnable := false, nameZH := "", nameEN := "stone",
    imageFilename := "stone.png" }

/-- The statics at program start: an empty block palette and allowed set. -/
def startStatics : Statics :=
  { mapType := mapTypes.Slope, mcVer := 17, needFindSide := true, blockPalette := [],
    Allowed := { color_id := [] } }

/-- Two new kernels, before any call. -/
def startWorld : World :=
  { st := startStatics, self := TokiSlopeCraft.new, others := [TokiSlopeCraft.new] }

/-- A kernel that has converted and built a 1 x 1 image. -/
def builtKernel : TokiSlopeCraft :=
  { kernelStep := step.builded, rawImage := { rows := 1, cols := 1, data := [4278190080] },
    gaRawImage := { rows := 1, cols := 1, data := [4278190080] }, mapPic := [118],
    schem := { x_range := 3, y_range := 2, z_range := 4, data := List.replicate 24 0 },
    log := [] }

/-- A built kernel and a new one, sharing the start statics. -/
def builtWorld : World :=
  { st := startStatics, self := builtKernel, others := [TokiSlopeCraft.new] }

/-- A 2 x 1 image of two opaque pixels. -/
def sampleImage : EImage := { rows := 2, cols := 1, data := [4294901760, 4278255360] }

/-- A kernel that has its map type set and waits for an image. -/
def waitingKernel : TokiSlopeCraft := { TokiSlopeCraft.new with kernelStep := step.wait4Image }

/-- A kernel that has converted a 1 x 1 image: one opaque black pixel, matched
to map colour 118. -/
def convertedKernel : TokiSlopeCraft :=
  { kernelStep := step.converted, rawImage := { rows := 1, cols := 1, data := [4278190080] },
    gaRawImage := { rows := 1, cols := 1, data := [4278190080] }, mapPic := [118],
    schem := { x_range := 0, y_range := 0, z_range := 0, data := [] }, log := [],
    ditheredImage := { rows := 1, cols := 1, data := [4278190080] },
    colorHash := [(4278190080, 118)] }

/-- The statics after a `setType` that left one allowed colour, map colour 4. -/
def oneColorStatics : Statics :=
  { startStatics with Allowed := { color_id := [4] } }

/-- A built kernel whose voxel grid is 1 x 1 x 2 and holds one block. -/
def smallBuiltKernel : TokiSlopeCraft :=
  { builtKernel with schem := { x_range := 1, y_range := 1, z_range := 2, data := [5, 0] } }

/-- Modelled from the spec: one choice of the parts of VisualCraft that are not
among the sources. The steps stand for 4 and 5; a pixel `(r, c)` at layer
`depth` goes to the voxel `(c, depth, r)`. -/
def vcExternals : VCExternals :=
  { VCL_wait_for_build := 4, VCL_built := 5,
    dirh := fun _ rows cols layers =>
      { range_xyz := (cols, layers, rows), coordinate_of := fun r c depth => (c, depth, r) },
    full_id := fun blk => "minecraft:block" ++ toString blk }

/-- Three allowed blocks, at the addresses 50, 100 and 200, with the ids 0, 1
and 2; colour 0 is block 100, colour 1 is block 200 over block 100, colour 2 a
block that is not allowed. -/
def vcStatics : VCStatics :=
  { exposed_face := 0, max_block_layers := 2,
    LUT_basic_color_idx_to_blocks := fun color =>
      if color = 0 then BlockVariant.single 100
      else if color = 1 then BlockVariant.layers [200, 100]
      else BlockVariant.single 300,
    blocks_allowed := [(50, 0), (100, 1), (200, 2)] }

/-- A `TokiVC` with a converted 2 x 1 image of the colours 0 and 1. -/
def vcKernel : TokiVC :=
  { _step := 4, img_rows := 2, img_cols := 1, color_id := [0, 1],
    schem := { x_range := 0, y_range := 0, z_range := 0, block_ids := [], voxels := [] },
    reports := [] }

/-- A resource pack with the file `a` and the folder `x`, which holds `c`. -/
def packA : zipped_folder :=
  .mk [("a", [1])] [("x", .mk [("c", [7])] [])]

/-- A base pack with other contents for `a` and `c`, and with `b`, `x/d` and
`y/e` besides. -/
def packB : zipped_folder :=
  .mk [("a", [2]), ("b", [3])] [("x", .mk [("c", [8]), ("d", [4])] []), ("y", .mk [("e", [5])] [])]

/-- The statics after a `setType` that left one allowed colour and a palette of
stone. -/
def readyStatics : Statics :=
  { oneColorStatics with blockPalette := List.replicate 64 stoneBlock }

/-- A built kernel with a 1 x 1 x 2 grid and a new kernel, sharing the start
statics. -/
def smallBuiltWorld : World :=
  { st := startStatics, self := smallBuiltKernel, others := [TokiSlopeCraft.new] }

/-- A kernel that has converted a 2 x 1 image: the first pixel matched to map
colour 118, the second, transparent, to map colour 2 of base colour 0. -/
def twoCellKernel : TokiSlopeCraft :=
  { kernelStep := step.converted, rawImage := { rows := 2, cols := 1, data := [4278190080, 0] },
    gaRawImage := { rows := 2, cols := 1, data := [4278190080, 0] }, mapPic := [118, 2],
    schem := { x_range := 0, y_range := 0, z_range := 0, data := [] }, log := [],
    ditheredImage := { rows := 2, cols := 1, data := [4278190080, 0] },
    colorHash := [(4278190080, 118), (0, 2)] }

/-- A kernel that has converted an image of 32768 rows and one column. -/
def tallKernel : TokiSlopeCraft :=
  { kernelStep := step.converted,
    rawImage := { rows := 32768, cols := 1, data := List.replicate 32768 4278190080 },
    gaRawImage := { rows := 32768, cols := 1, data := List.replicate 32768 4278190080 },
    mapPic := List.replicate 32768 118,
    schem := { x_range := 0, y_range := 0, z_range := 0, data := [] }, log := [],
    ditheredImage := { rows := 32768, cols := 1, data := List.replicate 32768 4278190080 },
    colorHash := [(4278190080, 118)] }

/-! ## Lemmas on the two loops of setType -/

theorem setType_MIndex_getElem? (D : Externals) (w : World) (type : mapTypes) (ver : Int)
    (allowedBaseColor : Nat → Bool) (palettes : Nat → Option simpleBlock) (i : Nat) :
    (setType_MIndex D w type ver allowedBaseColor palettes)[i]? =
      if i < 256 then
        some (MIndexAt D type ver allowedBaseColor (fillPalette D w.st.blockPalette palettes) i)
      else none := by
  unfold setType_MIndex
  by_cases h : i < 256
  · simp [h, List.getElem?_range]
  · simp [h]
    omega

theorem setType_MIndex_length (D : Externals) (w : World) (type : mapTypes) (ver : Int)
    (allowedBaseColor : Nat → Bool) (palettes : Nat → Option simpleBlock) :
    (setType_MIndex D w type ver allowedBaseColor palettes).length = 256 := by
  simp [setType_MIndex]

theorem fillPalette_length (D : Externals) (old : List simpleBlock)
    (palettes : Nat → Option simpleBlock) : (fillPalette D old palettes).length = 64 := by
  simp [fillPalette]

theorem fillPalette_getD (D : Externals) (old : List simpleBlock)
    (palettes : Nat → Option simpleBlock) (b : Nat) (hb : b < 64) :
    (fillPalette D old palettes).getD b D.newBlock =
      match palettes b with
      | none => D.clear ((resize D old 64).getD b D.newBlock)
      | some blk => storeBlock blk := by
  simp [fillPalette, List.getD, List.getElem?_range, hb]

theorem index2baseColor_lt (i : Nat) : index2baseColor i < 64 := by
  unfold index2baseColor
  omega

theorem hasColon_ne_empty (s : String) (h : hasColon s = true) : s.isEmpty = false := by
  rcases s with ⟨cs⟩
  cases cs with
  | nil => simp [hasColon] at h
  | cons c cs =>
    cases hE : String.isEmpty ⟨c :: cs⟩ with
    | false => rfl
    | true =>
      have := (String.isEmpty_iff _).1 hE
      exact absurd (congrArg String.data this) (by simp)

theorem minecraft_append_ne_empty (s : String) : ("minecraft:" ++ s).isEmpty = false := by
  cases hE : ("minecraft:" ++ s).isEmpty with
  | false => rfl
  | true =>
    have h1 := (String.isEmpty_iff _).1 hE
    have h2 := congrArg String.data h1
    simp [String.data_append] at h2

theorem storeBlock_id (b : simpleBlock) :
    (storeBlock b).id = if hasColon b.id then b.id else "minecraft:" ++ b.id := by
  unfold storeBlock
  by_cases h : hasColon b.id = true <;> simp only [h] <;> split_ifs <;> simp

theorem storeBlock_id_ne_empty (b : simpleBlock) : (storeBlock b).id.isEmpty = false := by
  rw [storeBlock_id]
  by_cases h : hasColon b.id = true
  · simp only [h, if_true]
    exact hasColon_ne_empty _ h
  · simp only [h]
    exact minecraft_append_ne_empty _

theorem MIndexAt_eq_true_iff (D : Externals) (type : mapTypes) (ver : Int)
    (allowedBaseColor : Nat → Bool) (bp : List simpleBlock) (i : Nat) :
    MIndexAt D type ver allowedBaseColor bp i = true ↔
      allowedBaseColor (index2baseColor i) = true ∧ index2baseColor i ≠ 0 ∧
      ¬ ver < baseColorVer D (index2baseColor i) ∧
      (bp.getD (index2baseColor i) D.newBlock).id.isEmpty = false ∧
      (type ≠ mapTypes.FileOnly → index2depth i < 3) ∧
      (type = mapTypes.Flat → index2depth i = if index2baseColor i = 12 then 2 else 1) ∧
      (type = mapTypes.Wall → index2depth i = 1) := by
  unfold MIndexAt isVanilla isFlat
  generalize bp.getD (index2baseColor i) D.newBlock = blk
  by_cases h1 : allowedBaseColor (index2baseColor i) = true
  · by_cases h2 : index2baseColor i = 0
    · simp [h1, h2]
    · by_cases h3 : ver < baseColorVer D (index2baseColor i)
      · simp [h1, h2, h3]
      · by_cases h4 : blk.id.isEmpty = true
        · simp [h1, h2, h3, h4]
        · by_cases h5 : index2baseColor i = 12 <;> cases type <;>
            simp [h1, h2, h3, h4, h5]
  · simp [h1]

/-! ## The usable indices (C1 to C4) -/

/-- C1: every palette index that `setType` marks usable (`MIndex[i] = true`) is
one of 0..255 whose base colour is enabled and is not 0 (air), whose base
colour has a minimum version not above the requested game version, and whose
shade depth the map type permits: below 3 unless the map type is FileOnly, and
the one depth of a flat map (on Flat 2 for water, base colour 12, and 1 for
every other base colour; on Wall 1). -/
theorem setType_MIndex_sound (D : Externals) (w : World) (type : mapTypes) (ver : Int)
    (allowedBaseColor : Nat → Bool) (palettes : Nat → Option simpleBlock) (i : Nat)
    (h : (setType_MIndex D w type ver allowedBaseColor palettes)[i]? = some true) :
    i < 256 ∧ allowedBaseColor (index2baseColor i) = true ∧ index2baseColor i ≠ 0 ∧
      ¬ ver < baseColorVer D (index2baseColor i) ∧
      (type ≠ mapTypes.FileOnly → index2depth i < 3) ∧
      (type = mapTypes.Flat → index2depth i = if index2baseColor i = 12 then 2 else 1) ∧
      (type = mapTypes.Wall → index2depth i = 1) := by
  rw [setType_MIndex_getElem?] at h
  by_cases hi : i < 256
  · simp only [hi, if_true, Option.some.injEq] at h
    obtain ⟨h1, h2, h3, _, h5, h6, h7⟩ := (MIndexAt_eq_true_iff _ _ _ _ _ _).1 h
    exact ⟨hi, h1, h2, h3, h5, h6, h7⟩
  · simp [hi] at h

/-- Witness of C1: on a Flat map of version 17 with every base colour enabled
and given stone, index 140 (water, depth 2) is marked usable. -/
theorem setType_MIndex_sound_witness :
    (setType_MIndex (sclExternals 1) startWorld mapTypes.Flat 17 (fun _ => true)
        (fun _ => some stoneBlock))[140]? = some true ∧
      (140 < 256 ∧ (fun _ : Nat => true) (index2baseColor 140) = true ∧
        index2baseColor 140 ≠ 0 ∧
        ¬ (17 : Int) < baseColorVer (sclExternals 1) (index2baseColor 140) ∧
        (mapTypes.Flat ≠ mapTypes.FileOnly → index2depth 140 < 3) ∧
        (mapTypes.Flat = mapTypes.Flat →
          index2depth 140 = if index2baseColor 140 = 12 then 2 else 1) ∧
        (mapTypes.Flat = mapTypes.Wall → index2depth 140 = 1)) :=
  ⟨by rw [setType_MIndex_getElem?]; decide,
    setType_MIndex_sound (sclExternals 1) startWorld mapTypes.Flat 17 (fun _ => true)
      (fun _ => some stoneBlock) 140 (by rw [setType_MIndex_getElem?]; decide)⟩

/-- C2: `setType` drops no eligible colour. An index of 0..255 whose base colour
is enabled, is not 0, has a minimum version not above the requested one and
has a block with a non-empty id assigned, and whose depth is below 3 unless the
map type is FileOnly and is the depth a flat map type requires, is marked
usable. -/
theorem setType_MIndex_complete (D : Externals) (w : World) (type : mapTypes) (ver : Int)
    (allowedBaseColor : Nat → Bool) (palettes : Nat → Option simpleBlock) (i : Nat)
    (blk : simpleBlock) (hi : i < 256)
    (hen : allowedBaseColor (index2baseColor i) = true) (h0 : index2baseColor i ≠ 0)
    (hver : baseColorVer D (index2baseColor i) ≤ ver)
    (hblk : palettes (index2baseColor i) = some blk) (_hid : blk.id ≠ "")
    (hdepth : index2depth i < 3 ∨ type = mapTypes.FileOnly)
    (hflat : type = mapTypes.Flat → index2depth i = if index2baseColor i = 12 then 2 else 1)
    (hwall : type = mapTypes.Wall → index2depth i = 1) :
    (setType_MIndex D w type ver allowedBaseColor palettes)[i]? = some true := by
  rw [setType_MIndex_getElem?]
  simp only [hi, if_true, Option.some.injEq]
  refine (MIndexAt_eq_true_iff _ _ _ _ _ _).2 ⟨hen, h0, not_lt.2 hver, ?_, ?_, hflat, hwall⟩
  · rw [fillPalette_getD _ _ _ _ (index2baseColor_lt i), hblk]
    exact storeBlock_id_ne_empty blk
  · intro hne
    rcases hdepth with hd | hd
    · exact hd
    · exact absurd hd hne

/-- Witness of C2: on a Wall map of version 17 with every base colour enabled
and given stone, index 76 (water, depth 1) meets every condition. -/
theorem setType_MIndex_complete_witness :
    (setType_MIndex (sclExternals 1) startWorld mapTypes.Wall 17 (fun _ => true)
        (fun _ => some stoneBlock))[76]? = some true :=
  setType_MIndex_complete (sclExternals 1) startWorld mapTypes.Wall 17 (fun _ => true)
    (fun _ => some stoneBlock) 76 stoneBlock (by decide) rfl (by decide) (by decide) rfl
    (by decide) (by decide) (by decide) (by decide)

/-- C3, as stated, fails on Wall: `isFlat` holds for Wall, index 76 has the water
base colour 12 and shade depth 1, not 2, and `setType` keeps it. -/
theorem setType_wall_keeps_shallow_water :
    isFlat mapTypes.Wall = true ∧ index2baseColor 76 = 12 ∧ index2depth 76 ≠ 2 ∧
      (setType_MIndex (sclExternals 1) startWorld mapTypes.Wall 17 (fun _ => true)
        (fun _ => some stoneBlock))[76]? = some true :=
  ⟨by decide, by decide, by decide, by rw [setType_MIndex_getElem?]; decide⟩

/-- C3, amended: on a Flat map `setType` keeps an index of the water base colour
(12) only if its shade depth is 2 and an index of any other base colour only if
its shade depth is 1; on a Wall map it keeps an index of any base colour, water
included, only if its shade depth is 1. -/
theorem setType_flat_depth (D : Externals) (w : World) (type : mapTypes) (ver : Int)
    (allowedBaseColor : Nat → Bool) (palettes : Nat → Option simpleBlock) (i : Nat)
    (h : (setType_MIndex D w type ver allowedBaseColor palettes)[i]? = some true) :
    (type = mapTypes.Flat →
        (index2baseColor i = 12 → index2depth i = 2) ∧
        (index2baseColor i ≠ 12 → index2depth i = 1)) ∧
      (type = mapTypes.Wall → index2depth i = 1) := by
  rw [setType_MIndex_getElem?] at h
  by_cases hi : i < 256
  · simp only [hi, if_true, Option.some.injEq] at h
    obtain ⟨_, _, _, _, _, h6, h7⟩ := (MIndexAt_eq_true_iff _ _ _ _ _ _).1 h
    refine ⟨fun hf => ⟨fun hb => ?_, fun hb => ?_⟩, h7⟩
    · simpa [hb] using h6 hf
    · simpa [hb] using h6 hf
  · simp [hi] at h

/-- Witness of C3, amended: index 140 (water, depth 2) is kept on a Flat map. -/
theorem setType_flat_depth_witness :
    (setType_MIndex (sclExternals 1) startWorld mapTypes.Flat 17 (fun _ => true)
        (fun _ => some stoneBlock))[140]? = some true ∧
      ((mapTypes.Flat = mapTypes.Flat →
          (index2baseColor 140 = 12 → index2depth 140 = 2) ∧
          (index2baseColor 140 ≠ 12 → index2depth 140 = 1)) ∧
        (mapTypes.Flat = mapTypes.Wall → index2depth 140 = 1)) :=
  ⟨by rw [setType_MIndex_getElem?]; decide,
    setType_flat_depth (sclExternals 1) startWorld mapTypes.Flat 17 (fun _ => true)
      (fun _ => some stoneBlock) 140 (by rw [setType_MIndex_getElem?]; decide)⟩

/-- C4, on the code: with every entry of `palettes` null and every base colour
enabled, `setType` stores the cleared block, whose id is the id of air and not
the empty string, so index 1 (base colour 1, depth 0) is marked usable. -/
theorem setType_null_palette_usable :
    (fun _ : Nat => (none : Option simpleBlock)) (index2baseColor 1) = none ∧
      ((fillPalette (sclExternals 1) startWorld.st.blockPalette (fun _ => none)).getD
        (index2baseColor 1) (sclExternals 1).newBlock).id = "minecraft:air" ∧
      (setType_MIndex (sclExternals 1) startWorld mapTypes.Slope 17 (fun _ => true)
        (fun _ => none))[1]? = some true :=
  ⟨rfl, by decide, by rw [setType_MIndex_getElem?]; decide⟩

/-- A null entry of `palettes` leaves an index usable only if the block that
`clear` leaves has a non-empty id. -/
theorem setType_MIndex_null_palette (D : Externals) (w : World) (type : mapTypes) (ver : Int)
    (allowedBaseColor : Nat → Bool) (palettes : Nat → Option simpleBlock) (i : Nat)
    (hnull : palettes (index2baseColor i) = none)
    (h : (setType_MIndex D w type ver allowedBaseColor palettes)[i]? = some true) :
    (D.clear ((resize D w.st.blockPalette 64).getD (index2baseColor i) D.newBlock)).id.isEmpty
      = false := by
  rw [setType_MIndex_getElem?] at h
  by_cases hi : i < 256
  · simp only [hi, if_true, Option.some.injEq] at h
    obtain ⟨_, _, _, h4, _⟩ := (MIndexAt_eq_true_iff _ _ _ _ _ _).1 h
    rw [fillPalette_getD _ _ _ _ (index2baseColor_lt i), hnull] at h4
    exact h4
  · simp [hi] at h

/-! ## A refused and an accepted setType (C5 to C7) -/

set_option maxRecDepth 100000

theorem foldl_append_init (l : List String) (init : String) :
    l.foldl (fun r s => r ++ s) init = init ++ l.foldl (fun r s => r ++ s) "" := by
  induction l generalizing init with
  | nil => simp
  | cons x xs ih =>
    simp only [List.foldl_cons]
    rw [ih (init ++ x), ih ("" ++ x), String.append_assoc]
    simp

theorem range_map_getD (l : List Nat) :
    (List.range l.length).map (fun idx => l.getD idx 0) = l := by
  apply List.ext_getElem
  · simp
  · intro i h1 h2
    simp [List.getD, List.getElem?_eq_getElem h2]

/-- The text of the too-few-colours error, written out: the number of colours
left, then every map colour left, in order, each followed by a comma and a
blank. -/
theorem tooFewMsg_eq (A : colorset_allowed_t) :
    tooFewMsg A =
      "Too few usable color(s) : only " ++ toString A.color_id.length ++ " colors\n"
        ++ "Avaliable base color(s) : "
        ++ String.join (A.color_id.map fun mapColor => toString mapColor ++ ", ") := by
  unfold tooFewMsg colorset_allowed_t.color_count colorset_allowed_t.Map
  have h := List.foldl_map (fun idx => A.color_id.getD idx 0)
    (fun (msg : String) (c : Nat) => msg ++ (toString c ++ ", "))
    (List.range A.color_id.length)
    ("Too few usable color(s) : only " ++ toString A.color_id.length ++ " colors\n"
      ++ "Avaliable base color(s) : ")
  rw [range_map_getD] at h
  rw [← h]
  rw [String.join, ← List.foldl_map (fun c : Nat => toString c ++ ", ") (fun r s => r ++ s)]
  exact foldl_append_init _ _

/-- C5: when `apply_allowed` refuses the surviving set, `setType` returns false
and calls `reportError` once (after the one `reportWorkingStatue` call that
precedes the filter), with USEABLE_COLOR_TOO_FEW and the text
"Too few usable color(s) : only N colors", a line break,
"Avaliable base color(s) : " and the list, where N is the number of colours the
refused set holds and the list gives each of its map colours followed by ", ";
it changes the step of no kernel, and the allowed set is the refused one. The
function is total: no input makes it abort. -/
theorem setType_too_few (D : Externals) (w : World) (type : mapTypes) (ver : Int)
    (allowedBaseColor : Nat → Bool) (palettes : Nat → Option simpleBlock)
    (h : (D.apply_allowed w.st.Allowed
        (setType_MIndex D w type ver allowedBaseColor palettes)).1 = false) :
    (setType D w type ver allowedBaseColor palettes).1 = false ∧
      (setType D w type ver allowedBaseColor palettes).2.self.log =
        w.self.log ++ [Report.workingStatue workStatues.collectingColors,
          Report.error errorFlag.USEABLE_COLOR_TOO_FEW
            ("Too few usable color(s) : only "
              ++ toString (D.apply_allowed w.st.Allowed
                (setType_MIndex D w type ver allowedBaseColor palettes)).2.color_id.length
              ++ " colors\n" ++ "Avaliable base color(s) : "
              ++ String.join ((D.apply_allowed w.st.Allowed
                (setType_MIndex D w type ver allowedBaseColor palettes)).2.color_id.map
                  fun mapColor => toString mapColor ++ ", "))] ∧
      (setType D w type ver allowedBaseColor palettes).2.self.kernelStep = w.self.kernelStep ∧
      (setType D w type ver allowedBaseColor palettes).2.others = w.others ∧
      (setType D w type ver allowedBaseColor palettes).2.st.Allowed =
        (D.apply_allowed w.st.Allowed
          (setType_MIndex D w type ver allowedBaseColor palettes)).2 := by
  rw [← tooFewMsg_eq]
  simp [setType, h, TokiSlopeCraft.report]

/-- Witness of C5: a built kernel, a floor of five colours, and only base colour
1 enabled on a flat map. One colour survives, map colour 5; the call is refused,
the log holds the working status and the one error with its text, and the step
is still `builded`. -/
theorem setType_too_few_witness :
    (setType (sclExternals 5) builtWorld mapTypes.Flat 17 (fun b => decide (b = 1))
        (fun _ => some stoneBlock)).1 = false ∧
      (setType (sclExternals 5) builtWorld mapTypes.Flat 17 (fun b => decide (b = 1))
          (fun _ => some stoneBlock)).2.self.log =
        [Report.workingStatue workStatues.collectingColors,
          Report.error errorFlag.USEABLE_COLOR_TOO_FEW
            "Too few usable color(s) : only 1 colors\nAvaliable base color(s) : 5, "] ∧
      (setType (sclExternals 5) builtWorld mapTypes.Flat 17 (fun b => decide (b = 1))
          (fun _ => some stoneBlock)).2.self.kernelStep = step.builded ∧
      (setType (sclExternals 5) builtWorld mapTypes.Flat 17 (fun b => decide (b = 1))
          (fun _ => some stoneBlock)).2.others = builtWorld.others :=
  have h := setType_too_few (sclExternals 5) builtWorld mapTypes.Flat 17
    (fun b => decide (b = 1)) (fun _ => some stoneBlock) (by decide)
  ⟨h.1, by decide, h.2.2.1, h.2.2.2.1⟩

/-- C6, as stated, fails: a call with every base colour disabled is refused, yet
the map type, the game version and the block palette are no longer what they
were before the call. -/
theorem setType_refused_overwrites_statics :
    (setType (sclExternals 1) startWorld mapTypes.Flat 12 (fun _ => false) (fun _ => none)).1
        = false ∧
      (setType (sclExternals 1) startWorld mapTypes.Flat 12 (fun _ => false)
          (fun _ => none)).2.st.mapType ≠ startWorld.st.mapType ∧
      (setType (sclExternals 1) startWorld mapTypes.Flat 12 (fun _ => false)
          (fun _ => none)).2.st.mcVer ≠ startWorld.st.mcVer ∧
      (setType (sclExternals 1) startWorld mapTypes.Flat 12 (fun _ => false)
          (fun _ => none)).2.st.blockPalette ≠ startWorld.st.blockPalette := by
  decide

/-- C6, amended: whenever `setType` returns false, every kernel keeps its step,
its images and its voxel grid (the calling kernel only gains the reports in its
log); the map type and the game version are those of the refused call, the
block palette is the 64-entry palette built from the blocks of the refused
call, and the allowed-colour set is the one `apply_allowed` left. -/
theorem setType_refused_state (D : Externals) (w : World) (type : mapTypes) (ver : Int)
    (allowedBaseColor : Nat → Bool) (palettes : Nat → Option simpleBlock)
    (h : (setType D w type ver allowedBaseColor palettes).1 = false) :
    (setType D w type ver allowedBaseColor palettes).2.self =
        { w.self with log := (setType D w type ver allowedBaseColor palettes).2.self.log } ∧
      (setType D w type ver allowedBaseColor palettes).2.others = w.others ∧
      (setType D w type ver allowedBaseColor palettes).2.st.mapType = type ∧
      (setType D w type ver allowedBaseColor palettes).2.st.mcVer = ver ∧
      (setType D w type ver allowedBaseColor palettes).2.st.blockPalette =
        fillPalette D w.st.blockPalette palettes ∧
      (setType D w type ver allowedBaseColor palettes).2.st.blockPalette.length = 64 ∧
      (setType D w type ver allowedBaseColor palettes).2.st.Allowed =
        (D.apply_allowed w.st.Allowed
          (setType_MIndex D w type ver allowedBaseColor palettes)).2 := by
  unfold setType at h ⊢
  by_cases hok : (D.apply_allowed w.st.Allowed
      (setType_MIndex D w type ver allowedBaseColor palettes)).1 = true
  · simp [hok] at h
  · simp [hok, TokiSlopeCraft.report, fillPalette_length]

/-- Witness of C6, amended: the refused call with every base colour disabled. -/
theorem setType_refused_state_witness :
    (setType (sclExternals 1) builtWorld mapTypes.Wall 12 (fun _ => false) (fun _ => none)).1
        = false ∧
      (setType (sclExternals 1) builtWorld mapTypes.Wall 12 (fun _ => false)
          (fun _ => none)).2.st.mapType = mapTypes.Wall :=
  ⟨by decide,
    (setType_refused_state (sclExternals 1) builtWorld mapTypes.Wall 12 (fun _ => false)
      (fun _ => none) (by decide)).2.2.1⟩

/-- After every `setType` that returns true the step of the calling kernel is
exactly `wait4Image`, whatever it was before, and so is the step of every other
registered kernel. The image-size and converted-image queries of the calling
kernel and the extent queries of its voxel grid are then refused; `getBuild`
writes -1 to the extents asked for and still returns the data of the grid the
kernel had before the call. -/
theorem setType_success_queries (D : Externals) (w : World) (type : mapTypes) (ver : Int)
    (allowedBaseColor : Nat → Bool) (palettes : Nat → Option simpleBlock)
    (argbLUT : Nat → Nat) (x y z : Option Int)
    (h : (setType D w type ver allowedBaseColor palettes).1 = true) :
    (setType D w type ver allowedBaseColor palettes).2.self.kernelStep = step.wait4Image ∧
      (∀ k ∈ (setType D w type ver allowedBaseColor palettes).2.others,
        k.kernelStep = step.wait4Image) ∧
      (getImageRows (setType D w type ver allowedBaseColor palettes).2.self).2 = -1 ∧
      (getImageCols (setType D w type ver allowedBaseColor palettes).2.self).2 = -1 ∧
      (getConovertedImage argbLUT (setType D w type ver allowedBaseColor palettes).2.self).1.log =
        (setType D w type ver allowedBaseColor palettes).2.self.log ++
          [Report.error errorFlag.HASTY_MANIPULATION
            "You can get the converted image only after you converted a map."] ∧
      (getConovertedImage argbLUT (setType D w type ver allowedBaseColor palettes).2.self).2 =
        some (EImage.zero w.self.rawImage.rows w.self.rawImage.cols) ∧
      getHeight (setType D w type ver allowedBaseColor palettes).2.self = -1 ∧
      getXRange (setType D w type ver allowedBaseColor palettes).2.self = -1 ∧
      getZRange (setType D w type ver allowedBaseColor palettes).2.self = -1 ∧
      getBlockCounts (setType D w type ver allowedBaseColor palettes).2.self = -1 ∧
      get3DSize (setType D w type ver allowedBaseColor palettes).2.self x y z = (x, y, z) ∧
      getBuild (setType D w type ver allowedBaseColor palettes).2.self x y z =
        ((x.map fun _ => -1, y.map fun _ => -1, z.map fun _ => -1), w.self.schem.data) := by
  unfold setType at h ⊢
  by_cases hok : (D.apply_allowed w.st.Allowed
      (setType_MIndex D w type ver allowedBaseColor palettes)).1 = true
  · have h12 : step.wait4Image < step.convertionReady := by decide
    have h13 : step.wait4Image < step.converted := by decide
    have h14 : step.wait4Image < step.builded := by decide
    simp [hok, TokiSlopeCraft.report, getImageRows, getImageCols, getConovertedImage, getHeight,
      getXRange, getZRange, getBlockCounts, get3DSize, getBuild, sizePic, h12, h13, h14]
  · simp [hok] at h

/-- C7 on the code: a built kernel whose grid of 1 x 1 x 2 voxels holds block 5
calls `setType` with every base colour enabled and given stone. The call
returns true and the step of the kernel, `builded` before, is `wait4Image`;
`getHeight`, `getXRange`, `getZRange` and `get3DSize` are refused, and so is the
image-size query. The voxel-grid query `getBuild` is not: it has no test of the
step, and next to extents of -1 it hands out the voxels of the grid built
before the call. -/
theorem setType_success_getBuild_stale :
    (setType (sclExternals 1) smallBuiltWorld mapTypes.Slope 17 (fun _ => true)
        (fun _ => some stoneBlock)).1 = true ∧
      smallBuiltWorld.self.kernelStep = step.builded ∧
      (setType (sclExternals 1) smallBuiltWorld mapTypes.Slope 17 (fun _ => true)
        (fun _ => some stoneBlock)).2.self.kernelStep = step.wait4Image ∧
      (getImageRows (setType (sclExternals 1) smallBuiltWorld mapTypes.Slope 17 (fun _ => true)
        (fun _ => some stoneBlock)).2.self).2 = -1 ∧
      getHeight (setType (sclExternals 1) smallBuiltWorld mapTypes.Slope 17 (fun _ => true)
        (fun _ => some stoneBlock)).2.self = -1 ∧
      getXRange (setType (sclExternals 1) smallBuiltWorld mapTypes.Slope 17 (fun _ => true)
        (fun _ => some stoneBlock)).2.self = -1 ∧
      getZRange (setType (sclExternals 1) smallBuiltWorld mapTypes.Slope 17 (fun _ => true)
        (fun _ => some stoneBlock)).2.self = -1 ∧
      get3DSize (setType (sclExternals 1) smallBuiltWorld mapTypes.Slope 17 (fun _ => true)
        (fun _ => some stoneBlock)).2.self (some 0) (some 0) (some 0) = (some 0, some 0, some 0) ∧
      getBuild (setType (sclExternals 1) smallBuiltWorld mapTypes.Slope 17 (fun _ => true)
        (fun _ => some stoneBlock)).2.self (some 0) (some 0) (some 0) =
          ((some (-1), some (-1), some (-1)), [5, 0]) :=
  have h := setType_success_queries (sclExternals 1) smallBuiltWorld mapTypes.Slope 17
    (fun _ => true) (fun _ => some stoneBlock) (fun _ => 0) (some 0) (some 0) (some 0)
    (by decide)
  ⟨by decide, rfl, h.1, h.2.2.1, h.2.2.2.2.2.2.1, h.2.2.2.2.2.2.2.1, h.2.2.2.2.2.2.2.2.1,
    h.2.2.2.2.2.2.2.2.2.2.1, h.2.2.2.2.2.2.2.2.2.2.2⟩

/-! ## setRawImage (C8, C9) -/

/-- C8: on a kernel whose step is at least `wait4Image`, `setRawImage` with a
non-empty image stores exactly that image and sets the step to exactly
`convertionReady`, also when the step was `converted` or `builded`; no error is
reported, and `getHeight`, `getXRange`, `getZRange` and every `getBlockCounts`
overload then return -1. -/
theorem setRawImage_stores (k : TokiSlopeCraft) (img : EImage) (dest : List Int)
    (total : Int) (detail : Option (List Int))
    (hstep : step.wait4Image ≤ k.kernelStep) (himg : 0 < img.size) :
    (setRawImage k img).rawImage = img ∧
      (setRawImage k img).kernelStep = step.convertionReady ∧
      (setRawImage k img).log = k.log ∧
      getHeight (setRawImage k img) = -1 ∧
      getXRange (setRawImage k img) = -1 ∧
      getZRange (setRawImage k img) = -1 ∧
      getBlockCounts (setRawImage k img) = -1 ∧
      (getBlockCountsVec (setRawImage k img) (some dest)).2 = -1 ∧
      (getBlockCountsDetail (setRawImage k img) (some total) detail).1 = some (-1) := by
  have h1 : ¬ k.kernelStep < step.wait4Image := by
    change ¬ k.kernelStep.toNat < step.wait4Image.toNat
    have : step.wait4Image.toNat ≤ k.kernelStep.toNat := hstep
    omega
  have h2 : ¬ img.size ≤ 0 := by omega
  have h3 : step.convertionReady < step.builded := by decide
  simp [setRawImage, h1, h2, configGAConverter, getHeight, getXRange, getZRange, getBlockCounts,
    getBlockCountsVec, getBlockCountsDetail, h3]
  decide

/-- Witness of C8: a built kernel receives a new 2 x 1 image. -/
theorem setRawImage_stores_witness :
    (setRawImage builtKernel sampleImage).rawImage = sampleImage ∧
      (setRawImage builtKernel sampleImage).kernelStep = step.convertionReady ∧
      getHeight (setRawImage builtKernel sampleImage) = -1 :=
  have h := setRawImage_stores builtKernel sampleImage [] 0 none (by decide) (by decide)
  ⟨h.1, h.2.1, h.2.2.2.1⟩

/-- C9: `setRawImage` is refused in two cases, a step below `wait4Image`, reported
as HASTY_MANIPULATION, and otherwise an image of zero pixels, reported as
EMPTY_RAW_IMAGE; in both the kernel is what it was, but for the one report
added to its log: the raw image and the step are unchanged. -/
theorem setRawImage_refused (k : TokiSlopeCraft) (img : EImage)
    (h : k.kernelStep < step.wait4Image ∨ img.size = 0) :
    setRawImage k img =
        { k with log := k.log ++
          [if k.kernelStep < step.wait4Image then
            Report.error errorFlag.HASTY_MANIPULATION
              ("You can only import the raw image count after you set the map "
                ++ "type and gameversion")
          else
            Report.error errorFlag.EMPTY_RAW_IMAGE
              "The size of your raw image is 0. You loaded an empty image."] } ∧
      (setRawImage k img).rawImage = k.rawImage ∧
      (setRawImage k img).kernelStep = k.kernelStep := by
  by_cases h1 : k.kernelStep < step.wait4Image
  · simp [setRawImage, h1, TokiSlopeCraft.report]
  · have h2 : img.size = 0 := by
      rcases h with h | h
      · exact absurd h h1
      · exact h
    simp [setRawImage, h1, h2, TokiSlopeCraft.report]

/-- Witness of C9: a new kernel, whose step is `nothing`, is given an image. -/
theorem setRawImage_refused_witness :
    (setRawImage TokiSlopeCraft.new sampleImage).rawImage = TokiSlopeCraft.new.rawImage ∧
      (setRawImage TokiSlopeCraft.new sampleImage).kernelStep = step.nothing :=
  (setRawImage_refused TokiSlopeCraft.new sampleImage (Or.inl (by decide))).2

/-! ## Queries below the step they require (C10) -/

/-- C10: every size or count query fails below the step it requires and leaves
the step unchanged. `getColorCount` returns 0 when the step is below
`wait4Image`; `getImageRows` and `getImageCols` return -1 when it is below
`convertionReady`; when it is below `builded`, `getHeight`, `getXRange`,
`getZRange` and the three `getBlockCounts` overloads return -1 (the overload
with `total` and `detail` writes -1 to `total` and nothing to `detail`) and
`get3DSize` writes none of its outputs. -/
theorem queries_refused (st : Statics) (k : TokiSlopeCraft) :
    (k.kernelStep < step.wait4Image →
        (getColorCount st k).2 = 0 ∧ (getColorCount st k).1.kernelStep = k.kernelStep) ∧
      (k.kernelStep < step.convertionReady →
        (getImageRows k).2 = -1 ∧ (getImageRows k).1.kernelStep = k.kernelStep ∧
        (getImageCols k).2 = -1 ∧ (getImageCols k).1.kernelStep = k.kernelStep) ∧
      (k.kernelStep < step.builded →
        getHeight k = -1 ∧ getXRange k = -1 ∧ getZRange k = -1 ∧ getBlockCounts k = -1 ∧
        (∀ dest, (getBlockCountsVec k dest).2 = -1 ∧ (getBlockCountsVec k dest).1 = dest) ∧
        (∀ total detail, getBlockCountsDetail k total detail =
          (total.map fun _ => -1, detail)) ∧
        (∀ x y z, get3DSize k x y z = (x, y, z))) := by
  refine ⟨fun h => ?_, fun h => ?_, fun h => ?_⟩
  · simp [getColorCount, h, TokiSlopeCraft.report]
  · simp [getImageRows, getImageCols, h, TokiSlopeCraft.report]
  · refine ⟨by simp [getHeight, h], by simp [getXRange, h], by simp [getZRange, h],
      by simp [getBlockCounts, h], fun dest => ?_, fun total detail => ?_,
      fun x y z => by simp [get3DSize, h]⟩
    · cases dest <;> simp [getBlockCountsVec, h]
    · have hw : wrapInt32 (-1) = -1 := by decide
      cases total <;> cases detail <;> simp [getBlockCountsDetail, getBlockCountsVec, h, hw]

/-- Witness of C10: a new kernel is below every step the queries require. -/
theorem queries_refused_witness :
    (getColorCount startStatics TokiSlopeCraft.new).2 = 0 ∧
      (getImageRows TokiSlopeCraft.new).2 = -1 ∧
      getHeight TokiSlopeCraft.new = -1 ∧
      getBlockCountsDetail TokiSlopeCraft.new (some 7) (some [1, 2]) = (some (-1), some [1, 2]) :=
  have h := queries_refused startStatics TokiSlopeCraft.new
  ⟨(h.1 (by decide)).1, (h.2.1 (by decide)).1, (h.2.2 (by decide)).1,
    (h.2.2 (by decide)).2.2.2.2.2.1 (some 7) (some [1, 2])⟩

/-! ## The data queries and decreaseStep (C11 to C13) -/

/-- C11, on the code: the data queries do not test the step they require. A new
kernel, whose step is `nothing`, gets the allowed colours written to both colour
destinations of `getAvailableColors`; a kernel put back from `converted` to
`convertionReady` gets the converted map written to `dst` by `getConvertedMap`,
without any report; a kernel put back from `builded` to `converted` gets its
voxel data from `getBuild`, next to three extents of -1. -/
theorem data_queries_bypass_step :
    (TokiSlopeCraft.new.kernelStep < step.wait4Image ∧
      (getAvailableColors oneColorStatics (fun _ _ => 0) TokiSlopeCraft.new (some [7]) (some [9])
        none).2 = (some [4278190080], some [4], none)) ∧
    ((decreaseStep convertedKernel step.convertionReady).kernelStep < step.converted ∧
      (getConvertedMap (decreaseStep convertedKernel step.convertionReady) none none [0]).2.2.2
        = [118] ∧
      (getConvertedMap (decreaseStep convertedKernel step.convertionReady) none none [0]).1.log
        = []) ∧
    ((decreaseStep smallBuiltKernel step.converted).kernelStep < step.builded ∧
      getBuild (decreaseStep smallBuiltKernel step.converted) (some 0) (some 0) (some 0)
        = ((some (-1), some (-1), some (-1)), [5, 0])) := by
  decide

/-- C12: `decreaseStep(s)` only reverts. The new step is the smaller of the
current step and `s`, so it is never above the current step; the call changes
nothing when the current step is at most `s`; a second call with the same `s`
changes nothing more; and no other member of the kernel changes. -/
theorem decreaseStep_min (k : TokiSlopeCraft) (s : step) :
    (decreaseStep k s).kernelStep.toNat = min k.kernelStep.toNat s.toNat ∧
      (decreaseStep k s).kernelStep ≤ k.kernelStep ∧
      (k.kernelStep ≤ s → decreaseStep k s = k) ∧
      decreaseStep (decreaseStep k s) s = decreaseStep k s ∧
      decreaseStep k s = { k with kernelStep := (decreaseStep k s).kernelStep } := by
  have hle : ∀ a b : step, a ≤ b ↔ a.toNat ≤ b.toNat := fun _ _ => Iff.rfl
  unfold decreaseStep
  by_cases h : k.kernelStep ≤ s
  · have h' := (hle _ _).1 h
    simp [h, hle, Nat.min_eq_left h']
  · have h' : ¬ k.kernelStep.toNat ≤ s.toNat := fun x => h ((hle _ _).2 x)
    simp [h, hle]
    omega

/-- Witness of C12: a built kernel is put back to `wait4Image`, and a kernel at
`wait4Image` is left alone by `decreaseStep(builded)`. -/
theorem decreaseStep_min_witness :
    decreaseStep builtKernel step.wait4Image = { builtKernel with kernelStep := step.wait4Image } ∧
      decreaseStep waitingKernel step.builded = waitingKernel :=
  ⟨by
    have h := (decreaseStep_min builtKernel step.wait4Image).2.2.2.2
    rw [h]; rfl,
   (decreaseStep_min waitingKernel step.builded).2.2.1 (by decide)⟩

/-- C13, on the code: on a built kernel whose voxel grid is 1 x 1 x 2,
`get3DSize` writes 1, 1 and 2, `getXRange` and `getHeight` return the x and y
written, but `getZRange` returns 1, the x extent, and so does the `zSize` of
`getBuild`. -/
theorem getZRange_returns_x_range :
    smallBuiltKernel.kernelStep = step.builded ∧
      get3DSize smallBuiltKernel (some 0) (some 0) (some 0) = (some 1, some 1, some 2) ∧
      getXRange smallBuiltKernel = 1 ∧ getHeight smallBuiltKernel = 1 ∧
      getZRange smallBuiltKernel = 1 ∧
      (getBuild smallBuiltKernel (some 0) (some 0) (some 0)).1 = (some 1, some 1, some 1) := by
  decide

/-! ## The block counts (C14) -/

theorem wrapInt32_of_lt (n : Int) (h0 : 0 ≤ n) (h1 : n < 2 ^ 31) : wrapInt32 n = n := by
  unfold wrapInt32
  norm_num at h1 ⊢
  omega

theorem incrAt_length (l : List Int) (i : Nat) : (incrAt l i).length = l.length := by
  induction l generalizing i with
  | nil => rfl
  | cons v vs ih => cases i <;> simp [incrAt, ih]

theorem incrAt_getD (l : List Int) (i j : Nat) :
    (incrAt l i).getD j 0 = l.getD j 0 + if i = j ∧ j < l.length then 1 else 0 := by
  induction l generalizing i j with
  | nil => simp [incrAt]
  | cons v vs ih =>
    cases i with
    | zero => cases j <;> simp [incrAt]
    | succ i =>
      cases j with
      | zero => simp [incrAt]
      | succ j =>
        have := ih i j
        simp only [List.getD_cons_succ, incrAt, List.length_cons, Nat.succ_lt_succ_iff,
          Nat.add_lt_add_iff_right, Nat.succ.injEq, Nat.add_right_cancel_iff] at this ⊢
        exact this

theorem incrAt_sum (l : List Int) (i : Nat) (h : i < l.length) : (incrAt l i).sum = l.sum + 1 := by
  induction l generalizing i with
  | nil => simp at h
  | cons v vs ih =>
    cases i with
    | zero => simp [incrAt]; ring
    | succ i =>
      have := ih i (by simpa using h)
      simp [incrAt, this]; ring

theorem incrAt_nonneg (l : List Int) (i : Nat) (h : ∀ c ∈ l, 0 ≤ c) : ∀ c ∈ incrAt l i, 0 ≤ c := by
  induction l generalizing i with
  | nil => simp [incrAt]
  | cons v vs ih =>
    cases i with
    | zero =>
      intro c hc
      simp [incrAt] at hc
      rcases hc with rfl | hc
      · have := h v (by simp); omega
      · exact h c (by simp [hc])
    | succ i =>
      intro c hc
      simp [incrAt] at hc
      rcases hc with rfl | hc
      · exact h _ (by simp)
      · exact ih i (fun c hc => h c (by simp [hc])) c hc

/-- The loop of `getBlockCounts(dest)` over the voxels. -/
theorem countLoop_spec (data : List Nat) (acc : List Int) (hlen : acc.length = 64)
    (hv : ∀ v ∈ data, v ≤ 64) (hacc : ∀ c ∈ acc, 0 ≤ c) :
    (data.foldl (fun acc v => if v ≠ 0 then incrAt acc (v - 1) else acc) acc).length = 64 ∧
      (∀ j, j < 64 →
        (data.foldl (fun acc v => if v ≠ 0 then incrAt acc (v - 1) else acc) acc).getD j 0 =
          acc.getD j 0 + (data.count (j + 1) : Int)) ∧
      (data.foldl (fun acc v => if v ≠ 0 then incrAt acc (v - 1) else acc) acc).sum =
        acc.sum + ((data.filter fun v => v ≠ 0).length : Int) ∧
      (∀ c ∈ data.foldl (fun acc v => if v ≠ 0 then incrAt acc (v - 1) else acc) acc, 0 ≤ c) := by
  induction data generalizing acc with
  | nil => simp [hlen]; exact hacc
  | cons v vs ih =>
    have hv' : ∀ x ∈ vs, x ≤ 64 := fun x hx => hv x (by simp [hx])
    have hv64 : v ≤ 64 := hv v (by simp)
    by_cases h0 : v = 0
    · subst h0
      have := ih acc hlen hv' hacc
      simp only [List.foldl_cons, ne_eq, not_true_eq_false, if_false]
      refine ⟨this.1, fun j hj => ?_, ?_, this.2.2.2⟩
      · rw [this.2.1 j hj]
        simp [List.count_cons]
      · rw [this.2.2.1]
        simp
    · have hl : (incrAt acc (v - 1)).length = 64 := by rw [incrAt_length, hlen]
      have := ih (incrAt acc (v - 1)) hl hv' (incrAt_nonneg _ _ hacc)
      simp only [List.foldl_cons, ne_eq, h0, not_false_eq_true, if_true]
      refine ⟨this.1, fun j hj => ?_, ?_, this.2.2.2⟩
      · rw [this.2.1 j hj, incrAt_getD]
        by_cases hvj : v - 1 = j
        · have : v = j + 1 := by omega
          subst this
          simp [hlen, hj, List.count_cons]
          ring
        · have : ¬ (v = j + 1) := by omega
          simp [hvj, List.count_cons, this]
      · rw [this.2.2.1, incrAt_sum _ _ (by omega)]
        simp [h0]
        ring

theorem replicate_zero_getD (n j : Nat) : (List.replicate n (0 : Int)).getD j 0 = 0 := by
  induction n generalizing j with
  | zero => simp
  | succ n ih => cases j <;> simp [List.replicate_succ, ih]

theorem sumLoop_spec (l : List Int) (t : Int) (hl : ∀ c ∈ l, 0 ≤ c) (ht : 0 ≤ t)
    (hs : t + l.sum < 2 ^ 31) :
    l.foldl (fun total c => wrapInt32 (total + c)) t = t + l.sum := by
  induction l generalizing t with
  | nil => simp
  | cons c cs ih =>
    have hc : 0 ≤ c := hl c (by simp)
    have hcs : ∀ x ∈ cs, 0 ≤ x := fun x hx => hl x (by simp [hx])
    have hsum : 0 ≤ cs.sum := List.sum_nonneg hcs
    simp only [List.sum_cons] at hs
    have hw : wrapInt32 (t + c) = t + c := wrapInt32_of_lt _ (by omega) (by omega)
    simp only [List.foldl_cons, hw, List.sum_cons]
    rw [ih (t + c) hcs (by omega) (by omega)]
    ring

theorem totalLoop_spec (data : List Nat) (t : Int) (ht : 0 ≤ t)
    (hs : t + (data.length : Int) < 2 ^ 31) :
    data.foldl (fun total v => if v ≠ 0 then wrapInt32 (total + 1) else total) t =
      t + ((data.filter fun v => v ≠ 0).length : Int) := by
  induction data generalizing t with
  | nil => simp
  | cons v vs ih =>
    simp only [List.length_cons, Nat.cast_add, Nat.cast_one] at hs
    by_cases h0 : v = 0
    · simp only [List.foldl_cons, h0, ne_eq, not_true_eq_false, if_false]
      rw [ih t ht (by omega)]
      simp
    · have hw : wrapInt32 (t + 1) = t + 1 := wrapInt32_of_lt _ (by omega) (by omega)
      simp only [List.foldl_cons, ne_eq, h0, not_false_eq_true, if_true, hw]
      rw [ih (t + 1) (by omega) (by omega)]
      simp [h0]
      ring

theorem filter_length_le (data : List Nat) :
    ((data.filter fun v => v ≠ 0).length : Int) ≤ (data.length : Int) := by
  exact_mod_cast List.length_filter_le _ _

/-- C14: on a built kernel whose voxel grid has fewer than 2^31 cells, all with
values in 0..64, `getBlockCounts(dest)` leaves in `dest` 64 entries, entry `j`
the number of voxels of value `j + 1` (every index `v - 1` it increments is
below 64), returns the sum of the entries, and this total is the number of
non-zero voxels, which the overload without argument returns. -/
theorem getBlockCounts_counts (k : TokiSlopeCraft) (d : List Int)
    (hb : k.kernelStep = step.builded) (hn : k.schem.data.length < 2 ^ 31)
    (hv : ∀ v ∈ k.schem.data, v ≤ 64) :
    ∃ counts : List Int,
      (getBlockCountsVec k (some d)).1 = some counts ∧ counts.length = 64 ∧
      (∀ j, j < 64 → counts.getD j 0 = (k.schem.data.count (j + 1) : Int)) ∧
      (∀ v ∈ k.schem.data, v ≠ 0 → v - 1 < 64) ∧
      (getBlockCountsVec k (some d)).2 = counts.sum ∧
      (getBlockCountsVec k (some d)).2 = getBlockCounts k ∧
      getBlockCounts k = ((k.schem.data.filter fun v => v ≠ 0).length : Int) := by
  have hstep : ¬ k.kernelStep < step.builded := by rw [hb]; decide
  have hn' : (k.schem.data.length : Int) < 2 ^ 31 := by exact_mod_cast hn
  have hloop := countLoop_spec k.schem.data (List.replicate 64 0) (by simp) hv
    (by intro c hc; simp at hc; omega)
  have hfl := filter_length_le k.schem.data
  have hsum0 : (List.replicate 64 (0 : Int)).sum = 0 := by simp
  have htotal := totalLoop_spec k.schem.data 0 (le_refl 0) (by omega)
  have hsum := sumLoop_spec _ 0 hloop.2.2.2 (le_refl 0) (by rw [hloop.2.2.1, hsum0]; omega)
  refine ⟨_, by simp only [getBlockCountsVec, hstep, if_false], hloop.1, fun j hj => ?_,
    fun v hv1 hv0 => ?_, ?_, ?_, ?_⟩
  · rw [hloop.2.1 j hj, replicate_zero_getD]
    simp
  · have := hv v hv1; omega
  · simp only [getBlockCountsVec, hstep, if_false]
    rw [hsum]; simp
  · simp only [getBlockCountsVec, getBlockCounts, hstep, if_false]
    rw [hsum, htotal, hloop.2.2.1, hsum0]
    simp
  · simp only [getBlockCounts, hstep, if_false]
    rw [htotal]; simp

/-- Witness of C14: the grid of two voxels, one of them block 5. -/
theorem getBlockCounts_counts_witness :
    (getBlockCountsVec smallBuiltKernel (some [])).2 = getBlockCounts smallBuiltKernel ∧
      getBlockCounts smallBuiltKernel = 1 :=
  (getBlockCounts_counts smallBuiltKernel [] rfl (by decide) (by decide)).elim
    fun _ h => ⟨h.2.2.2.2.2.1, h.2.2.2.2.2.2⟩

/-! ## The converted image (C15) -/

theorem cell_index_lt (rows cols r c : Nat) (hr : r < rows) (hc : c < cols) :
    r + c * rows < rows * cols := by
  have h1 : (c + 1) * rows ≤ cols * rows := Nat.mul_le_mul_right rows hc
  have h2 : (c + 1) * rows = c * rows + rows := by ring
  have h3 : cols * rows = rows * cols := Nat.mul_comm _ _
  omega

/-- The converted image within the range of the loop counters. Below `converted`
the call reports HASTY_MANIPULATION and returns the zero image of the rows and
columns of the raw image. From `converted` on, with an image of no row, or of
fewer than 32768 rows and columns, the call reports nothing and returns an image
of the rows and columns of the raw image in which a cell whose map colour has
base colour 0 is 0 and every other cell is the table entry of its map colour;
with at least one row and 32768 rows or columns or more it does not return. -/
theorem getConovertedImage_within_short (argbLUT : Nat → Nat) (k : TokiSlopeCraft) :
    (k.kernelStep < step.converted →
        (getConovertedImage argbLUT k).2 =
          some { rows := k.rawImage.rows, cols := k.rawImage.cols,
                 data := List.replicate (k.rawImage.rows * k.rawImage.cols) 0 } ∧
        (getConovertedImage argbLUT k).1.log = k.log ++
          [Report.error errorFlag.HASTY_MANIPULATION
            "You can get the converted image only after you converted a map."]) ∧
      (¬ k.kernelStep < step.converted →
        (k.rawImage.rows = 0 ∨ (k.rawImage.rows < 32768 ∧ k.rawImage.cols < 32768)) →
        (getConovertedImage argbLUT k).1 = k ∧
        ∃ img, (getConovertedImage argbLUT k).2 = some img ∧
          img.rows = k.rawImage.rows ∧ img.cols = k.rawImage.cols ∧
          img.data.length = k.rawImage.rows * k.rawImage.cols ∧
          ∀ r c, r < k.rawImage.rows → c < k.rawImage.cols →
            (mapColor2baseColor (k.mapPic.getD (r + c * k.rawImage.rows) 0) = 0 →
              img.data[r + c * k.rawImage.rows]? = some 0) ∧
            (mapColor2baseColor (k.mapPic.getD (r + c * k.rawImage.rows) 0) ≠ 0 →
              img.data[r + c * k.rawImage.rows]? =
                some (argbLUT (mapColor2Index (k.mapPic.getD (r + c * k.rawImage.rows) 0))))) ∧
      (¬ k.kernelStep < step.converted → k.rawImage.rows ≠ 0 →
        (32768 ≤ k.rawImage.rows ∨ 32768 ≤ k.rawImage.cols) →
        (getConovertedImage argbLUT k).2 = none) := by
  refine ⟨fun h => ?_, fun h hsize => ?_, fun h h0 hbig => ?_⟩
  · simp [getConovertedImage, h, sizePic, EImage.zero, TokiSlopeCraft.report]
  · have hc : ¬ (k.rawImage.rows ≠ 0 ∧ (32768 ≤ k.rawImage.rows ∨ 32768 ≤ k.rawImage.cols)) := by
      omega
    simp only [getConovertedImage, h, if_false, sizePic, if_true, hc, one_ne_zero, true_and]
    refine ⟨_, rfl, rfl, rfl, by simp, fun r c hr hcol => ?_⟩
    have hlt := cell_index_lt _ _ r c hr hcol
    simp only [List.getD_eq_getElem?_getD]
    constructor
    · intro hbase
      simp [List.getElem?_range, hlt, hbase]
    · intro hbase
      simp [List.getElem?_range, hlt, hbase]
  · have hc : k.rawImage.rows ≠ 0 ∧ (32768 ≤ k.rawImage.rows ∨ 32768 ≤ k.rawImage.cols) :=
      ⟨h0, hbig⟩
    simp [getConovertedImage, h, sizePic, hc]

/-- The converted image of a kernel that has converted a 2 x 1 image: the cell
of map colour 118 is the table entry 157 of that colour, the cell of map colour
2, which has base colour 0, is the pixel 0. -/
theorem getConovertedImage_two_cells :
    (getConovertedImage (fun idx => 4278190080 + idx) twoCellKernel).2 =
        some { rows := 2, cols := 1, data := [4278190080 + 157, 0] } ∧
      (getConovertedImage (fun idx => 4278190080 + idx) twoCellKernel).1.log = [] ∧
      mapColor2baseColor 2 = 0 ∧ mapColor2baseColor 118 = 29 ∧ mapColor2Index 118 = 157 := by
  decide

/-- C15 on the code: a kernel that has converted an image of 32768 rows and one
column asks for the converted image. The counter `r` of the outer loop is a
`short`: after row 32767 it does not reach 32768, the test `r < sizePic(0)`
stays true and the loop reads `mapPic` outside the image, so the call returns
no image at all. With 32767 rows the image of 32767 rows and one column is
returned. -/
theorem getConovertedImage_tall_image :
    tallKernel.kernelStep = step.converted ∧
      tallKernel.rawImage.rows = 32768 ∧ tallKernel.rawImage.cols = 1 ∧
      (getConovertedImage (fun _ => 4294967295) tallKernel).2 = none ∧
      (getConovertedImage (fun _ => 4294967295)
        { tallKernel with rawImage := { tallKernel.rawImage with rows := 32767 } }).2.map
          (fun img => (img.rows, img.cols)) = some (32767, 1) := by
  decide

/-! ## Other kernels, determinism, the dithering kernels (C16, C19, C20) -/

/-- C16, as stated, fails: a built kernel calls `setType`, the call succeeds,
and the other live kernel, whose step was `nothing`, is at `wait4Image`. -/
theorem setType_resets_other_kernel :
    (setType (sclExternals 1) builtWorld mapTypes.Slope 17 (fun _ => true)
        (fun _ => some stoneBlock)).1 = true ∧
      builtWorld.others.map (fun k => k.kernelStep) = [step.nothing] ∧
      (setType (sclExternals 1) builtWorld mapTypes.Slope 17 (fun _ => true)
        (fun _ => some stoneBlock)).2.others.map (fun k => k.kernelStep) = [step.wait4Image] := by
  decide

/-- C16, amended: a refused `setType` on a kernel leaves every other live
kernel as it was; a successful one sets the step of every other live kernel to
`wait4Image` and changes nothing else of it. -/
theorem setType_other_kernels (D : Externals) (w : World) (type : mapTypes) (ver : Int)
    (allowedBaseColor : Nat → Bool) (palettes : Nat → Option simpleBlock) :
    ((setType D w type ver allowedBaseColor palettes).1 = false →
        (setType D w type ver allowedBaseColor palettes).2.others = w.others) ∧
      ((setType D w type ver allowedBaseColor palettes).1 = true →
        (setType D w type ver allowedBaseColor palettes).2.others =
          w.others.map fun k => { k with kernelStep := step.wait4Image }) := by
  unfold setType
  by_cases hok : (D.apply_allowed w.st.Allowed
      (setType_MIndex D w type ver allowedBaseColor palettes)).1 = true
  · simp [hok]
  · simp [hok]

/-- Witness of C16, amended: the refused call with every base colour disabled. -/
theorem setType_other_kernels_witness :
    (setType (sclExternals 1) builtWorld mapTypes.Flat 12 (fun _ => false) (fun _ => none)).2.others
      = builtWorld.others :=
  (setType_other_kernels (sclExternals 1) builtWorld mapTypes.Flat 12 (fun _ => false)
    (fun _ => none)).1 (by decide)

theorem fillPalette_ids (D : Externals) (old1 old2 : List simpleBlock)
    (palettes : Nat → Option simpleBlock) (b : Nat) (hb : b < 64)
    (h : palettes b ≠ none ∨ ∀ x y : simpleBlock, (D.clear x).id = (D.clear y).id) :
    ((fillPalette D old1 palettes).getD b D.newBlock).id =
      ((fillPalette D old2 palettes).getD b D.newBlock).id := by
  rw [fillPalette_getD _ _ _ _ hb, fillPalette_getD _ _ _ _ hb]
  cases hp : palettes b with
  | none =>
    rcases h with h | h
    · exact absurd hp h
    · exact h _ _
  | some blk => rfl

theorem MIndexAt_congr_ids (D : Externals) (type : mapTypes) (ver : Int)
    (allowedBaseColor : Nat → Bool) (bp1 bp2 : List simpleBlock) (i : Nat)
    (h : (bp1.getD (index2baseColor i) D.newBlock).id = (bp2.getD (index2baseColor i) D.newBlock).id) :
    MIndexAt D type ver allowedBaseColor bp1 i = MIndexAt D type ver allowedBaseColor bp2 i := by
  unfold MIndexAt
  rw [h]

/-- C19: the filter is deterministic. Two calls of `setType` with the same map
type, game version, enable mask and blocks compute the same array `MIndex`,
entry by entry, whatever the static members and the kernels were before each
call. A null entry of `palettes` is filled by `clear`; for such entries the id
`clear` leaves must not depend on the block it clears. -/
theorem setType_MIndex_deterministic (D : Externals) (w1 w2 : World) (type : mapTypes) (ver : Int)
    (allowedBaseColor : Nat → Bool) (palettes : Nat → Option simpleBlock)
    (h : (∀ b, b < 64 → palettes b ≠ none) ∨
      ∀ x y : simpleBlock, (D.clear x).id = (D.clear y).id) :
    setType_MIndex D w1 type ver allowedBaseColor palettes =
      setType_MIndex D w2 type ver allowedBaseColor palettes := by
  unfold setType_MIndex
  apply List.map_congr_left
  intro i _
  refine MIndexAt_congr_ids D type ver allowedBaseColor _ _ i
    (fillPalette_ids D _ _ palettes _ (index2baseColor_lt i) ?_)
  rcases h with h | h
  · exact Or.inl (h _ (index2baseColor_lt i))
  · exact Or.inr h

/-- Witness of C19: the same call at program start and after another kernel has
set a different map type, version, mask and palette. -/
theorem setType_MIndex_deterministic_witness :
    setType_MIndex (sclExternals 1) startWorld mapTypes.Flat 17 (fun _ => true) (fun _ => none) =
      setType_MIndex (sclExternals 1)
        (setType (sclExternals 1) builtWorld mapTypes.Slope 12 (fun b => decide (b < 5))
          (fun _ => some stoneBlock)).2
        mapTypes.Flat 17 (fun _ => true) (fun _ => none) :=
  setType_MIndex_deterministic (sclExternals 1) _ _ mapTypes.Flat 17 (fun _ => true)
    (fun _ => none) (Or.inr fun _ _ => rfl)

/-- C20: `DitherMapLR` is [[0, 0, 7/16], [3/16, 5/16, 1/16]], `DitherMapRL` is
[[7/16, 0, 0], [1/16, 5/16, 3/16]], each row of the one the reverse of the row
of the other; in both every weight is non-negative and the six weights sum to
exactly 1. -/
theorem DitherMap_weights :
    DitherMapLR = [[0, 0, 7 / 16], [3 / 16, 5 / 16, 1 / 16]] ∧
      DitherMapRL = [[7 / 16, 0, 0], [1 / 16, 5 / 16, 3 / 16]] ∧
      DitherMapRL = DitherMapLR.map List.reverse ∧
      (∀ row ∈ DitherMapLR, ∀ x ∈ row, 0 ≤ x) ∧
      (∀ row ∈ DitherMapRL, ∀ x ∈ row, 0 ≤ x) ∧
      (DitherMapLR.map List.sum).sum = 1 ∧
      (DitherMapRL.map List.sum).sum = 1 := by
  refine ⟨?_, ?_, ?_, ?_, ?_, ?_, ?_⟩
  · simp [DitherMapLR]
  · simp [DitherMapRL]
  · simp [DitherMapLR, DitherMapRL]
  · simp [DitherMapLR]; norm_num
  · simp [DitherMapRL]; norm_num
  · simp [DitherMapLR]; norm_num
  · simp [DitherMapRL]; norm_num

/-! ## TokiVC::build (C17) -/

theorem buildCells_spec (S : VCStatics) (t : TokiVC) (dirh : dir_handler)
    (ps : List (Nat × Nat × Nat)) (sch : VCSchem) :
    ((buildCells S t dirh ps sch).1 = none →
        (∀ p ∈ ps, (S.blocks_allowed.lookup (blockAt S t p.1 p.2.1 p.2.2)).isSome = true) ∧
        (buildCells S t dirh ps sch).2.voxels =
          (ps.map fun p => (dirh.coordinate_of p.1 p.2.1 p.2.2, assignedId S t p)).reverse
            ++ sch.voxels) ∧
      (∀ blkp, (buildCells S t dirh ps sch).1 = some blkp →
        S.blocks_allowed.lookup blkp = none ∧
        ∃ p ∈ ps, blkp = blockAt S t p.1 p.2.1 p.2.2) ∧
      ((∃ p ∈ ps, S.blocks_allowed.lookup (blockAt S t p.1 p.2.1 p.2.2) = none) →
        (buildCells S t dirh ps sch).1 ≠ none) := by
  induction ps generalizing sch with
  | nil => simp [buildCells]
  | cons p ps ih =>
    obtain ⟨r, c, depth⟩ := p
    cases hl : S.blocks_allowed.lookup (blockAt S t r c depth) with
    | none =>
      simp only [buildCells, hl]
      refine ⟨fun h => by simp at h, fun blkp h => ?_, fun _ => by simp⟩
      simp only [Option.some.injEq] at h
      subst h
      exact ⟨hl, (r, c, depth), by simp, rfl⟩
    | some blk_id =>
      have ih' := ih (sch.write (dirh.coordinate_of r c depth) blk_id)
      simp only [buildCells, hl]
      refine ⟨fun h => ?_, fun blkp h => ?_, fun h => ?_⟩
      · obtain ⟨h1, h2⟩ := ih'.1 h
        refine ⟨fun p hp => ?_, ?_⟩
        · rcases List.mem_cons.1 hp with rfl | hp
          · simp [hl]
          · exact h1 p hp
        · rw [h2]
          simp [VCSchem.write, assignedId, hl]
      · obtain ⟨h1, p, hp, h2⟩ := ih'.2.1 blkp h
        exact ⟨h1, p, List.mem_cons_of_mem _ hp, h2⟩
      · apply ih'.2.2
        obtain ⟨p, hp, hnone⟩ := h
        rcases List.mem_cons.1 hp with rfl | hp
        · simp [hl] at hnone
        · exact ⟨p, hp, hnone⟩

theorem fill_foldl_none (E : VCExternals) (ps : List (Nat × Nat)) :
    ps.foldl (fun (ids : Option (List (Option String))) pair =>
      match ids with
      | none => none
      | some l => if pair.2 < l.length then some (l.set pair.2 (some (E.full_id pair.1))) else none)
      none = none := by
  induction ps with
  | nil => rfl
  | cons p ps ih => simpa using ih

theorem fill_foldl_spec (E : VCExternals) (ps : List (Nat × Nat)) (l : List (Option String)) :
    ((∀ pair ∈ ps, pair.2 < l.length) →
      ∃ ids, ps.foldl (fun (ids : Option (List (Option String))) pair =>
        match ids with
        | none => none
        | some l => if pair.2 < l.length then some (l.set pair.2 (some (E.full_id pair.1)))
          else none) (some l) = some ids) ∧
    ((∃ pair ∈ ps, ¬ pair.2 < l.length) →
      ps.foldl (fun (ids : Option (List (Option String))) pair =>
        match ids with
        | none => none
        | some l => if pair.2 < l.length then some (l.set pair.2 (some (E.full_id pair.1)))
          else none) (some l) = none) := by
  induction ps generalizing l with
  | nil => simp
  | cons p ps ih =>
    by_cases hp : p.2 < l.length
    · have ih' := ih (l.set p.2 (some (E.full_id p.1)))
      simp only [List.length_set] at ih'
      simp only [List.foldl_cons, hp, if_true]
      refine ⟨fun h => ih'.1 fun pair hpair => h pair (List.mem_cons_of_mem _ hpair), fun h => ?_⟩
      apply ih'.2
      obtain ⟨pair, hpair, hlt⟩ := h
      rcases List.mem_cons.1 hpair with rfl | hpair
      · exact absurd hp hlt
      · exact ⟨pair, hpair, hlt⟩
    · simp only [List.foldl_cons, hp, if_false]
      refine ⟨fun h => absurd (h p (List.mem_cons_self _ _)) hp, fun _ => fill_foldl_none E ps⟩

theorem fill_schem_blocklist_no_lock_spec (E : VCExternals) (S : VCStatics) :
    ((∀ pair ∈ S.blocks_allowed, pair.2 < S.blocks_allowed.length) →
      ∃ ids, fill_schem_blocklist_no_lock E S = some ids) ∧
    ((∃ pair ∈ S.blocks_allowed, ¬ pair.2 < S.blocks_allowed.length) →
      fill_schem_blocklist_no_lock E S = none) := by
  have h := fill_foldl_spec E S.blocks_allowed (List.replicate S.blocks_allowed.length none)
  simp only [List.length_replicate] at h
  exact h

/-- C17: `TokiVC::build` returns false and leaves the step unchanged, with the
one error report "Trying to build before without image converted.", when the
step is below `VCL_wait_for_build`. From that step on, when every id of
`blocks_allowed` is below the number of allowed blocks, `build` returns; if the
block chosen for some pixel and layer is missing from `blocks_allowed` it
returns false with the step unchanged and reports one error,
"Failed to find VCL_block at address A named N in allowed blocks. This is an
internal error.", where A is the address, formatted as a pointer, and N the
full id of a block chosen for a pixel and layer whose lookup failed: the text is
built from the block, not from the result of the lookup. Whenever `build`
returns false the step is unchanged; when it returns true the step is
`VCL_built`, nothing is reported, every chosen block is allowed, and the voxels
written are, in the order of the loops, the ids `blocks_allowed` assigns to the
blocks of the pixels and layers. When some id of `blocks_allowed` is not below
the number of allowed blocks, filling the block id list writes outside its
vector and `build` has no result. -/
theorem TokiVC_build_spec (E : VCExternals) (S : VCStatics) (t : TokiVC) :
    (t._step < E.VCL_wait_for_build →
        TokiVC.build E S t = some (false, { t with reports := t.reports ++
          [(VCL_report_type_t.error, "Trying to build before without image converted.")] })) ∧
      (¬ t._step < E.VCL_wait_for_build →
        (∀ pair ∈ S.blocks_allowed, pair.2 < S.blocks_allowed.length) →
        ∃ res, TokiVC.build E S t = some res ∧
          ((∃ p ∈ buildPositions S t,
              S.blocks_allowed.lookup (blockAt S t p.1 p.2.1 p.2.2) = none) →
            res.1 = false ∧ res.2._step = t._step ∧
            ∃ blkp, S.blocks_allowed.lookup blkp = none ∧
              (∃ p ∈ buildPositions S t, blkp = blockAt S t p.1 p.2.1 p.2.2) ∧
              res.2.reports = t.reports ++
                [(VCL_report_type_t.error,
                  "Failed to find VCL_block at address " ++ formatPointer blkp ++ " named "
                    ++ E.full_id blkp ++ " in allowed blocks. This is an internal error.")]) ∧
          (res.1 = false → res.2._step = t._step) ∧
          (res.1 = true →
            res.2._step = E.VCL_built ∧ res.2.reports = t.reports ∧
            (∀ p ∈ buildPositions S t,
              (S.blocks_allowed.lookup (blockAt S t p.1 p.2.1 p.2.2)).isSome = true) ∧
            res.2.schem.voxels =
              ((buildPositions S t).map fun p =>
                ((E.dirh S.exposed_face t.img_rows t.img_cols S.max_block_layers).coordinate_of
                  p.1 p.2.1 p.2.2, assignedId S t p)).reverse)) ∧
      (¬ t._step < E.VCL_wait_for_build →
        (∃ pair ∈ S.blocks_allowed, ¬ pair.2 < S.blocks_allowed.length) →
        TokiVC.build E S t = none) := by
  refine ⟨fun hs => by simp [TokiVC.build, hs], fun hs hids => ?_, fun hs hids => ?_⟩
  · obtain ⟨ids, hfill⟩ := (fill_schem_blocklist_no_lock_spec E S).1 hids
    have hspec := buildCells_spec S t
      (E.dirh S.exposed_face t.img_rows t.img_cols S.max_block_layers) (buildPositions S t)
      { x_range := (E.dirh S.exposed_face t.img_rows t.img_cols S.max_block_layers).range_xyz.1,
        y_range := (E.dirh S.exposed_face t.img_rows t.img_cols S.max_block_layers).range_xyz.2.1,
        z_range := (E.dirh S.exposed_face t.img_rows t.img_cols S.max_block_layers).range_xyz.2.2,
        block_ids := ids, voxels := [] }
    simp only [TokiVC.build, hs, if_false, hfill]
    generalize hres : buildCells S t
      (E.dirh S.exposed_face t.img_rows t.img_cols S.max_block_layers) (buildPositions S t) _
      = res at hspec
    obtain ⟨failed, sch⟩ := res
    cases failed with
    | none =>
      have h1 := hspec.1 rfl
      have h3 := hspec.2.2
      simp only at h1 h3 ⊢
      refine ⟨_, rfl, fun h => absurd rfl (h3 h), by simp, fun _ => ⟨by trivial, by trivial, h1.1, ?_⟩⟩
      simpa using h1.2
    | some blkp =>
      have h2 := hspec.2.1 blkp rfl
      simp only at h2 ⊢
      refine ⟨_, rfl, fun _ => ⟨by trivial, by trivial, blkp, h2.1, h2.2, rfl⟩, fun _ => by trivial,
        fun h => by simp at h⟩
  · simp [TokiVC.build, hs, (fill_schem_blocklist_no_lock_spec E S).2 hids]

/-- Witness of C17, with three allowed blocks of ids 0, 1 and 2: below the step
the build is refused; a 2 x 1 image builds, with the step at `VCL_built`, three
voxels and the three full ids in the block id list; with a colour whose block,
at address 300, is not allowed the build is refused after the first voxel, the
step stays and the error names the address as `0x12c`; with an id of 3 the
build has no result. -/
theorem TokiVC_build_spec_witness :
    TokiVC.build vcExternals vcStatics { vcKernel with _step := 3 } =
        some (false, { vcKernel with _step := 3, reports :=
          [(VCL_report_type_t.error, "Trying to build before without image converted.")] }) ∧
      (¬ vcKernel._step < vcExternals.VCL_wait_for_build ∧
        ∀ pair ∈ vcStatics.blocks_allowed, pair.2 < vcStatics.blocks_allowed.length) ∧
      ((TokiVC.build vcExternals vcStatics vcKernel).map (fun res => (res.1, res.2._step)) =
          some (true, 5) ∧
        (TokiVC.build vcExternals vcStatics vcKernel).map (fun res => res.2.reports) = some [] ∧
        (TokiVC.build vcExternals vcStatics vcKernel).map (fun res => res.2.schem.voxels) =
          some [((0, 1, 1), 1), ((0, 0, 1), 2), ((0, 0, 0), 1)] ∧
        (TokiVC.build vcExternals vcStatics vcKernel).map (fun res => res.2.schem.block_ids) =
          some [some "minecraft:block50", some "minecraft:block100",
            some "minecraft:block200"]) ∧
      ((TokiVC.build vcExternals vcStatics { vcKernel with color_id := [0, 2] }).map
            (fun res => (res.1, res.2._step)) = some (false, 4) ∧
        (TokiVC.build vcExternals vcStatics { vcKernel with color_id := [0, 2] }).map
            (fun res => res.2.reports) =
          some [(VCL_report_type_t.error,
            "Failed to find VCL_block at address 0x12c named minecraft:block300 in allowed blocks. This is an internal error.")] ∧
        (TokiVC.build vcExternals vcStatics { vcKernel with color_id := [0, 2] }).map
            (fun res => res.2.schem.voxels) = some [((0, 0, 0), 1)]) ∧
      TokiVC.build vcExternals { vcStatics with blocks_allowed := [(50, 0), (100, 3), (200, 2)] }
        vcKernel = none :=
  ⟨(TokiVC_build_spec vcExternals vcStatics { vcKernel with _step := 3 }).1 (by decide),
   by decide,
   by decide,
   by decide,
   (TokiVC_build_spec vcExternals { vcStatics with blocks_allowed := [(50, 0), (100, 3), (200, 2)] }
      vcKernel).2.2 (by decide) ⟨(100, 3), by decide, by decide⟩⟩

/-! ## MainWindow::showError (C18) -/

/-- C18, on the code: for EMPTY_RAW_IMAGE `showError` shows the critical box and
then emits the click of Exit, which closes the window; the same click is
emitted for each of the five other recoverable flags, and for none of the four
colour-map parsing failures, the only flags that set `isFatal`. -/
theorem showError_recoverable_exits :
    showError MainWindowErrorFlag.EMPTY_RAW_IMAGE =
        [UiAction.criticalBox, UiAction.exitClicked, UiAction.updateEnables] ∧
      UiAction.exitClicked ∈ showError MainWindowErrorFlag.DEPTH_3_IN_VANILLA_MAP ∧
      UiAction.exitClicked ∈ showError MainWindowErrorFlag.HASTY_MANIPULATION ∧
      UiAction.exitClicked ∈ showError MainWindowErrorFlag.LOSSYCOMPRESS_FAILED ∧
      UiAction.exitClicked ∈ showError MainWindowErrorFlag.MAX_ALLOWED_HEIGHT_LESS_THAN_14 ∧
      UiAction.exitClicked ∈ showError MainWindowErrorFlag.USEABLE_COLOR_TO_LITTLE ∧
      UiAction.exitClicked ∉ showError MainWindowErrorFlag.PARSING_COLORMAP_HSV_FAILED ∧
      UiAction.exitClicked ∉ showError MainWindowErrorFlag.PARSING_COLORMAP_Lab_FAILED ∧
      UiAction.exitClicked ∉ showError MainWindowErrorFlag.PARSING_COLORMAP_XYZ_FAILED ∧
      UiAction.exitClicked ∉ showError MainWindowErrorFlag.PARSING_COLORMAP_RGB_FAILED := by
  decide

/-! ## The version table and the flat depth on Wall (C21, C22) -/

/-- With the other rules satisfied, an index is usable iff the version is not
below the version of its base colour. -/
theorem setType_MIndex_version_iff (D : Externals) (w : World) (type : mapTypes) (ver : Int)
    (allowedBaseColor : Nat → Bool) (palettes : Nat → Option simpleBlock) (i : Nat)
    (blk : simpleBlock) (hi : i < 256)
    (hen : allowedBaseColor (index2baseColor i) = true) (h0 : index2baseColor i ≠ 0)
    (hblk : palettes (index2baseColor i) = some blk)
    (hdepth : type ≠ mapTypes.FileOnly → index2depth i < 3)
    (hflat : type = mapTypes.Flat → index2depth i = if index2baseColor i = 12 then 2 else 1)
    (hwall : type = mapTypes.Wall → index2depth i = 1) :
    (setType_MIndex D w type ver allowedBaseColor palettes)[i]? = some true ↔
      baseColorVer D (index2baseColor i) ≤ ver := by
  rw [setType_MIndex_getElem?]
  simp only [hi, if_true, Option.some.injEq]
  rw [MIndexAt_eq_true_iff]
  constructor
  · intro h
    exact not_lt.1 h.2.2.1
  · intro h
    refine ⟨hen, h0, not_lt.2 h, ?_, hdepth, hflat, hwall⟩
    rw [fillPalette_getD _ _ _ _ (index2baseColor_lt i), hblk]
    exact storeBlock_id_ne_empty blk

/-- C21: with all other rules satisfied, an index of base colour 1..51 is usable
for every game version (every game version is at least ANCIENT), an index of
base colour 52..58 is usable iff the version is at least MC16, an index of base
colour 59..61 is usable iff the version is at least MC17, and an index of base
colour 62 or 63 is usable for no version below FUTURE. -/
theorem setType_version_table (D : Externals) (w : World) (type : mapTypes) (ver : Int)
    (allowedBaseColor : Nat → Bool) (palettes : Nat → Option simpleBlock) (i : Nat)
    (blk : simpleBlock) (hi : i < 256)
    (hen : allowedBaseColor (index2baseColor i) = true)
    (hblk : palettes (index2baseColor i) = some blk)
    (hdepth : type ≠ mapTypes.FileOnly → index2depth i < 3)
    (hflat : type = mapTypes.Flat → index2depth i = if index2baseColor i = 12 then 2 else 1)
    (hwall : type = mapTypes.Wall → index2depth i = 1) :
    (1 ≤ index2baseColor i ∧ index2baseColor i ≤ 51 → D.ANCIENT ≤ ver →
        (setType_MIndex D w type ver allowedBaseColor palettes)[i]? = some true) ∧
      (52 ≤ index2baseColor i ∧ index2baseColor i ≤ 58 →
        ((setType_MIndex D w type ver allowedBaseColor palettes)[i]? = some true ↔
          D.MC16 ≤ ver)) ∧
      (59 ≤ index2baseColor i ∧ index2baseColor i ≤ 61 →
        ((setType_MIndex D w type ver allowedBaseColor palettes)[i]? = some true ↔
          D.MC17 ≤ ver)) ∧
      (62 ≤ index2baseColor i → ver < D.FUTURE →
        (setType_MIndex D w type ver allowedBaseColor palettes)[i]? ≠ some true) := by
  refine ⟨fun hb hver => ?_, fun hb => ?_, fun hb => ?_, fun hb hlt => ?_⟩
  · rw [setType_MIndex_version_iff D w type ver allowedBaseColor palettes i blk hi hen
      (by omega) hblk hdepth hflat hwall]
    have : baseColorVer D (index2baseColor i) = D.ANCIENT := by
      unfold baseColorVer
      rw [if_neg (by omega), if_neg (by omega), if_pos (by omega)]
    rw [this]; exact hver
  · rw [setType_MIndex_version_iff D w type ver allowedBaseColor palettes i blk hi hen
      (by omega) hblk hdepth hflat hwall]
    have : baseColorVer D (index2baseColor i) = D.MC16 := by
      unfold baseColorVer
      rw [if_neg (by omega), if_pos (by omega)]
    rw [this]
  · rw [setType_MIndex_version_iff D w type ver allowedBaseColor palettes i blk hi hen
      (by omega) hblk hdepth hflat hwall]
    have : baseColorVer D (index2baseColor i) = D.MC17 := by
      unfold baseColorVer
      rw [if_pos (by omega)]
    rw [this]
  · intro h
    rw [setType_MIndex_version_iff D w type ver allowedBaseColor palettes i blk hi hen
      (by omega) hblk hdepth hflat hwall] at h
    have : baseColorVer D (index2baseColor i) = D.FUTURE := by
      unfold baseColorVer
      rw [if_neg (by omega), if_neg (by omega), if_neg (by omega)]
    rw [this] at h
    exact absurd h (not_le.2 hlt)

/-- Witness of C21: at version 16 index 52 is usable and index 59 is not. -/
theorem setType_version_table_witness :
    ((setType_MIndex (sclExternals 1) startWorld mapTypes.Slope 16 (fun _ => true)
        (fun _ => some stoneBlock))[52]? = some true ↔ (sclExternals 1).MC16 ≤ 16) ∧
      (setType_MIndex (sclExternals 1) startWorld mapTypes.Slope 16 (fun _ => true)
        (fun _ => some stoneBlock))[59]? ≠ some true :=
  have h := setType_version_table (sclExternals 1) startWorld mapTypes.Slope 16 (fun _ => true)
    (fun _ => some stoneBlock) 52 stoneBlock (by decide) rfl rfl (by decide) (by decide)
    (by decide)
  ⟨h.2.1 (by decide), by rw [setType_MIndex_getElem?]; decide⟩

/-- C22: with the other rules satisfied, on a Wall map an index of any base
colour, water (12) included, is kept iff its shade depth is 1; on a Flat map an
index of water is kept iff its shade depth is 2 and an index of another base
colour iff its shade depth is 1. -/
theorem setType_wall_water (D : Externals) (w : World) (type : mapTypes) (ver : Int)
    (allowedBaseColor : Nat → Bool) (palettes : Nat → Option simpleBlock) (i : Nat)
    (blk : simpleBlock) (hi : i < 256)
    (hen : allowedBaseColor (index2baseColor i) = true) (h0 : index2baseColor i ≠ 0)
    (hver : baseColorVer D (index2baseColor i) ≤ ver)
    (hblk : palettes (index2baseColor i) = some blk) :
    (type = mapTypes.Wall →
        ((setType_MIndex D w type ver allowedBaseColor palettes)[i]? = some true ↔
          index2depth i = 1)) ∧
      (type = mapTypes.Flat → index2baseColor i = 12 →
        ((setType_MIndex D w type ver allowedBaseColor palettes)[i]? = some true ↔
          index2depth i = 2)) ∧
      (type = mapTypes.Flat → index2baseColor i ≠ 12 →
        ((setType_MIndex D w type ver allowedBaseColor palettes)[i]? = some true ↔
          index2depth i = 1)) := by
  have hid : ((fillPalette D w.st.blockPalette palettes).getD (index2baseColor i)
      D.newBlock).id.isEmpty = false := by
    rw [fillPalette_getD _ _ _ _ (index2baseColor_lt i), hblk]
    exact storeBlock_id_ne_empty blk
  rw [setType_MIndex_getElem?]
  simp only [hi, if_true, Option.some.injEq]
  rw [MIndexAt_eq_true_iff]
  refine ⟨fun ht => ?_, fun ht hb => ?_, fun ht hb => ?_⟩
  · subst ht
    constructor
    · intro h; exact h.2.2.2.2.2.2 rfl
    · intro h
      exact ⟨hen, h0, not_lt.2 hver, hid, fun _ => (by omega), fun hf => (by cases hf),
        fun _ => h⟩
  · subst ht
    constructor
    · intro h; simpa [hb] using h.2.2.2.2.2.1 rfl
    · intro h
      exact ⟨hen, h0, not_lt.2 hver, hid, fun _ => (by omega), fun _ => (by simp [hb, h]),
        fun hf => (by cases hf)⟩
  · subst ht
    constructor
    · intro h; simpa [hb] using h.2.2.2.2.2.1 rfl
    · intro h
      exact ⟨hen, h0, not_lt.2 hver, hid, fun _ => (by omega), fun _ => (by simp [hb, h]),
        fun hf => (by cases hf)⟩

/-- Witness of C22: on a Wall map index 140, water of depth 2, is kept iff its
depth is 1. -/
theorem setType_wall_water_witness :
    ((setType_MIndex (sclExternals 1) startWorld mapTypes.Wall 17 (fun _ => true)
        (fun _ => some stoneBlock))[140]? = some true ↔ index2depth 140 = 1) :=
  (setType_wall_water (sclExternals 1) startWorld mapTypes.Wall 17 (fun _ => true)
    (fun _ => some stoneBlock) 140 stoneBlock (by decide) rfl (by decide) (by decide) rfl).1 rfl

/-! ## The stored blocks (C23) -/

theorem hasColon_minecraft_append (s : String) : hasColon ("minecraft:" ++ s) = true := by
  unfold hasColon
  rw [String.data_append]
  simp [List.contains_iff_exists_mem_beq]

theorem storeBlock_id_hasColon (b : simpleBlock) : hasColon (storeBlock b).id = true := by
  rw [storeBlock_id]
  by_cases h : hasColon b.id = true
  · simp [h]
  · simp only [h]
    exact hasColon_minecraft_append _

theorem storeBlock_idOld (b : simpleBlock) :
    (storeBlock b).idOld =
      if b.idOld.isEmpty then (storeBlock b).id
      else if hasColon b.idOld then b.idOld else "minecraft:" ++ b.idOld := by
  have hidc := storeBlock_id_hasColon b
  rw [storeBlock_id] at hidc ⊢
  unfold storeBlock
  by_cases h1 : hasColon b.id = true
  · by_cases h2 : b.idOld.isEmpty = true
    · simp [h1, h2] at hidc ⊢
    · by_cases h3 : hasColon b.idOld = true
      · simp [h1, h2, h3]
      · have hlen : 0 < b.idOld.length := by
          rcases hd : b.idOld with ⟨cs⟩
          cases cs with
          | nil => rw [hd] at h2; exact absurd rfl h2
          | cons c cs => simp [String.length]
        simp [h1, h2, h3, hlen]
  · by_cases h2 : b.idOld.isEmpty = true
    · simp [h1, h2, hasColon_minecraft_append]
    · by_cases h3 : hasColon b.idOld = true
      · simp [h1, h2, h3]
      · have hlen : 0 < b.idOld.length := by
          rcases hd : b.idOld with ⟨cs⟩
          cases cs with
          | nil => rw [hd] at h2; exact absurd rfl h2
          | cons c cs => simp [String.length]
        simp [h1, h2, h3, hlen]

theorem storeBlock_idOld_hasColon (b : simpleBlock) : hasColon (storeBlock b).idOld = true := by
  rw [storeBlock_idOld]
  by_cases h2 : b.idOld.isEmpty = true
  · simp only [h2, if_true]
    exact storeBlock_id_hasColon b
  · by_cases h3 : hasColon b.idOld = true
    · simp [h2, h3]
    · simp only [h2, h3]
      exact hasColon_minecraft_append _

theorem storeBlock_of_namespaced (r : simpleBlock) (h1 : hasColon r.id = true)
    (h2 : hasColon r.idOld = true) : storeBlock r = r := by
  have h3 := hasColon_ne_empty _ h2
  unfold storeBlock
  simp [h1, h2, h3]

theorem setType_blockPalette (D : Externals) (w : World) (type : mapTypes) (ver : Int)
    (allowedBaseColor : Nat → Bool) (palettes : Nat → Option simpleBlock) :
    (setType D w type ver allowedBaseColor palettes).2.st.blockPalette =
      fillPalette D w.st.blockPalette palettes := by
  unfold setType
  by_cases hok : (D.apply_allowed w.st.Allowed
      (setType_MIndex D w type ver allowedBaseColor palettes)).1 = true
  · simp [hok]
  · simp [hok]

/-- C23: after `setType`, refused or not, the palette entry of a non-null block
is the stored copy of the block. Its id is the given id when that contains a
colon and `minecraft:` followed by the given id otherwise; its idOld is the
stored id when the given idOld is empty, the given idOld when that contains a
colon, and `minecraft:` followed by it otherwise. So both contain a colon, the
stored id is never empty (the empty id is stored as `minecraft:` and the
empty-id rule does not apply), and storing a stored entry again changes
nothing. -/
theorem setType_stores_namespaced (D : Externals) (w : World) (type : mapTypes) (ver : Int)
    (allowedBaseColor : Nat → Bool) (palettes : Nat → Option simpleBlock) (i : Nat)
    (blk : simpleBlock) (hi : i < 64) (hblk : palettes i = some blk) :
    (setType D w type ver allowedBaseColor palettes).2.st.blockPalette.getD i D.newBlock
        = storeBlock blk ∧
      (storeBlock blk).id = (if hasColon blk.id then blk.id else "minecraft:" ++ blk.id) ∧
      (storeBlock blk).idOld =
        (if blk.idOld = "" then (storeBlock blk).id
         else if hasColon blk.idOld then blk.idOld else "minecraft:" ++ blk.idOld) ∧
      hasColon (storeBlock blk).id = true ∧ hasColon (storeBlock blk).idOld = true ∧
      (storeBlock blk).id ≠ "" ∧
      (blk.id = "" → (storeBlock blk).id = "minecraft:") ∧
      (storeBlock blk).id.isEmpty = false ∧
      storeBlock (storeBlock blk) = storeBlock blk := by
  refine ⟨?_, storeBlock_id blk, ?_, storeBlock_id_hasColon blk, storeBlock_idOld_hasColon blk,
    ?_, ?_, storeBlock_id_ne_empty blk, storeBlock_of_namespaced _ (storeBlock_id_hasColon blk)
      (storeBlock_idOld_hasColon blk)⟩
  · rw [setType_blockPalette, fillPalette_getD _ _ _ _ hi, hblk]
  · rw [storeBlock_idOld]
    by_cases h : blk.idOld = ""
    · have he : blk.idOld.isEmpty = true := (String.isEmpty_iff _).2 h
      rw [if_pos he, if_pos h]
    · have : blk.idOld.isEmpty = false := by
        cases hE : blk.idOld.isEmpty with
        | false => rfl
        | true => exact absurd ((String.isEmpty_iff _).1 hE) h
      simp [h, this]
  · intro h
    have := storeBlock_id_ne_empty blk
    rw [h] at this
    exact absurd this (by decide)
  · intro h
    rw [storeBlock_id, h]
    decide

/-- Witness of C23: stone given as `stone` is stored as `minecraft:stone`. -/
theorem setType_stores_namespaced_witness :
    (setType (sclExternals 1) startWorld mapTypes.Slope 17 (fun _ => true)
        (fun _ => some stoneBlock)).2.st.blockPalette.getD 3 (sclExternals 1).newBlock
        = storeBlock stoneBlock ∧
      (storeBlock stoneBlock).id = "minecraft:stone" ∧
      (storeBlock stoneBlock).idOld = "minecraft:stone" :=
  have h := setType_stores_namespaced (sclExternals 1) startWorld mapTypes.Slope 17
    (fun _ => true) (fun _ => some stoneBlock) 3 stoneBlock (by decide) rfl
  ⟨h.1, by decide, by decide⟩

/-! ## trySkipStep (C24) -/

/-- C24, as stated, fails: with a colour allowed and a palette set, a converted
kernel that calls `trySkipStep(builded)` is put back to `wait4Image`. -/
theorem trySkipStep_moves_back :
    (trySkipStep readyStatics convertedKernel step.builded).kernelStep = step.wait4Image ∧
      convertedKernel.kernelStep = step.converted ∧
      ¬ (convertedKernel.kernelStep ≤
        (trySkipStep readyStatics convertedKernel step.builded).kernelStep) := by
  decide

/-- C24, amended: the step after `trySkipStep(s)` is the current step `k` when
`k >= s` or when the allowed-colour set or the block palette is empty, and
`wait4Image` otherwise; no other member of the kernel changes; the step after
the call is at least `k` whenever `k` is at most `wait4Image`, so in every call
with `s` at most `wait4Image`. -/
theorem trySkipStep_step (st : Statics) (k : TokiSlopeCraft) (s : step) :
    (trySkipStep st k s).kernelStep =
        (if k.kernelStep ≥ s ∨ st.Allowed.color_count = 0 ∨ st.blockPalette.length = 0 then
          k.kernelStep else step.wait4Image) ∧
      trySkipStep st k s = { k with kernelStep := (trySkipStep st k s).kernelStep } ∧
      (k.kernelStep ≤ step.wait4Image → k.kernelStep ≤ (trySkipStep st k s).kernelStep) ∧
      (s ≤ step.wait4Image → k.kernelStep ≤ (trySkipStep st k s).kernelStep) := by
  have hle : ∀ a b : step, a ≤ b ↔ a.toNat ≤ b.toNat := fun _ _ => Iff.rfl
  unfold trySkipStep
  by_cases h1 : k.kernelStep ≥ s
  · simp [h1, hle]
  · by_cases h2 : st.Allowed.color_count ≠ 0 ∧ st.blockPalette.length ≠ 0
    · have h3 : ¬ (st.Allowed.color_count = 0 ∨ st.blockPalette.length = 0) := by tauto
      have h1' : ¬ s.toNat ≤ k.kernelStep.toNat := h1
      rw [if_neg h1, if_pos h2, if_neg (by tauto)]
      refine ⟨rfl, rfl, fun h => h, fun h => ?_⟩
      have h4 : s.toNat ≤ step.wait4Image.toNat := h
      exact (hle _ _).2 (by simp only []; omega)
    · have h3 : st.Allowed.color_count = 0 ∨ st.blockPalette.length = 0 := by tauto
      rw [if_neg h1, if_neg h2, if_pos (Or.inr h3)]
      exact ⟨rfl, rfl, fun _ => (hle _ _).2 (le_refl _), fun _ => (hle _ _).2 (le_refl _)⟩

/-- Witness of C24, amended: a new kernel skips to `wait4Image`. -/
theorem trySkipStep_step_witness :
    (trySkipStep readyStatics TokiSlopeCraft.new step.wait4Image).kernelStep = step.wait4Image ∧
      TokiSlopeCraft.new.kernelStep ≤
        (trySkipStep readyStatics TokiSlopeCraft.new step.wait4Image).kernelStep :=
  ⟨by decide,
    (trySkipStep_step readyStatics TokiSlopeCraft.new step.wait4Image).2.2.1 (by decide)⟩

/-! ## zipped_folder::merge_from_base (C25, C26) -/

theorem mergeSubfolders_eq_with (acc base : List (String × zipped_folder)) :
    mergeSubfolders acc base = mergeSubfoldersWith merge_from_base acc base := by
  induction base generalizing acc with
  | nil => simp [mergeSubfolders, mergeSubfoldersWith]
  | cons it rest ih =>
    obtain ⟨name, sub⟩ := it
    cases h : acc.lookup name with
    | none => simp [mergeSubfolders, mergeSubfoldersWith, h, ih]
    | some found => simp [mergeSubfolders, mergeSubfoldersWith, h, ih]

theorem mergeSubfoldersMove_eq_with (acc base : List (String × zipped_folder)) :
    mergeSubfoldersMove acc base = mergeSubfoldersWith merge_from_base_move acc base := by
  induction base generalizing acc with
  | nil => simp [mergeSubfoldersMove, mergeSubfoldersWith]
  | cons it rest ih =>
    obtain ⟨name, sub⟩ := it
    cases h : acc.lookup name with
    | none => simp [mergeSubfoldersMove, mergeSubfoldersWith, h, ih]
    | some found => simp [mergeSubfoldersMove, mergeSubfoldersWith, h, ih]

theorem lookup_mergeFiles (acc base : List (String × zipped_file)) (k : String) :
    (mergeFiles acc base).lookup k = (acc.lookup k).or (base.lookup k) := by
  unfold mergeFiles
  induction base generalizing acc with
  | nil => simp
  | cons it rest ih =>
    obtain ⟨n, v⟩ := it
    simp only [List.foldl_cons]
    rw [ih]
    by_cases hk : k = n
    · subst hk
      cases h : acc.lookup k with
      | none => simp [h, List.lookup_append, List.lookup_cons]
      | some x => simp [h]
    · have hkb : (k == n) = false := by simpa using hk
      cases h : acc.lookup n with
      | none => simp [h, List.lookup_append, List.lookup_cons, hkb]
      | some x => simp [h, List.lookup_cons, hkb]

theorem lookup_filter_absent (acc src : List (String × zipped_file)) (k : String)
    (h : acc.lookup k = none) :
    (src.filter fun it => (acc.lookup it.1).isNone).lookup k = src.lookup k := by
  induction src with
  | nil => simp
  | cons it rest ih =>
    obtain ⟨n, v⟩ := it
    by_cases hk : k = n
    · subst hk
      simp [List.filter_cons, h]
    · have hkb : (k == n) = false := by simpa using hk
      by_cases hn : (acc.lookup n).isNone = true
      · simp [List.filter_cons, hn, List.lookup_cons, hkb, ih]
      · simp [List.filter_cons, hn, List.lookup_cons, hkb, ih]

theorem lookup_mapMerge (acc src : List (String × zipped_file)) (k : String) :
    (mapMerge acc src).lookup k = (acc.lookup k).or (src.lookup k) := by
  unfold mapMerge
  rw [List.lookup_append]
  cases h : acc.lookup k with
  | none => simp [lookup_filter_absent acc src k h]
  | some x => simp

theorem lookup_replaceEntry (l : List (String × zipped_folder)) (n m : String)
    (v : zipped_folder) :
    (replaceEntry l n v).lookup m =
      if m = n then (l.lookup n).map (fun _ => v) else l.lookup m := by
  induction l with
  | nil => simp [replaceEntry]
  | cons it rest ih =>
    obtain ⟨k1, v1⟩ := it
    by_cases h1 : k1 = n
    · subst h1
      by_cases hm : m = k1
      · subst hm
        simp [replaceEntry]
      · have : (m == k1) = false := by simpa using hm
        simp [replaceEntry, List.lookup_cons, this, hm]
    · have h1' : (n == k1) = false := by simpa using (Ne.symm h1)
      by_cases hm : m = n
      · subst hm
        simp [replaceEntry, h1, List.lookup_cons, h1', ih]
      · by_cases hmk : m = k1
        · subst hmk
          simp [replaceEntry, h1, hm]
        · have : (m == k1) = false := by simpa using hmk
          simp [replaceEntry, h1, List.lookup_cons, this, ih, hm]

theorem lookup_mergeSubfoldersWith (m : zipped_folder → zipped_folder → zipped_folder)
    (acc base : List (String × zipped_folder)) (hnd : (base.map Prod.fst).Nodup) (k : String) :
    (mergeSubfoldersWith m acc base).lookup k =
      combineFolders m (acc.lookup k) (base.lookup k) := by
  induction base generalizing acc with
  | nil => cases h : acc.lookup k <;> simp [mergeSubfoldersWith, combineFolders, h]
  | cons it rest ih =>
    obtain ⟨n, sub⟩ := it
    simp only [List.map_cons, List.nodup_cons] at hnd
    obtain ⟨hn, hrest⟩ := hnd
    by_cases hk : k = n
    · subst hk
      have hr : rest.lookup k = none := by
        rw [List.lookup_eq_none_iff]
        intro p hp
        have : k ≠ p.1 := fun h => hn (h ▸ List.mem_map_of_mem Prod.fst hp)
        simpa using this
      cases h : acc.lookup k with
      | none =>
        simp only [mergeSubfoldersWith, h]
        rw [ih _ hrest, hr]
        simp [List.lookup_append, h, combineFolders]
      | some found =>
        simp only [mergeSubfoldersWith, h]
        rw [ih _ hrest, hr, lookup_replaceEntry]
        simp [h, combineFolders]
    · have hkb : (k == n) = false := by simpa using hk
      cases h : acc.lookup n with
      | none =>
        simp only [mergeSubfoldersWith, h]
        rw [ih _ hrest]
        simp [List.lookup_append, List.lookup_cons, hkb]
      | some found =>
        simp only [mergeSubfoldersWith, h]
        rw [ih _ hrest, lookup_replaceEntry]
        simp [hk, List.lookup_cons, hkb]

theorem uniqueNames_mk (files : List (String × zipped_file))
    (subs : List (String × zipped_folder)) (h : (zipped_folder.mk files subs).uniqueNames = true) :
    (subs.map Prod.fst).Nodup ∧ uniqueNamesIn subs = true := by
  simpa [zipped_folder.uniqueNames] using h

theorem uniqueNamesIn_lookup (subs : List (String × zipped_folder)) (h : uniqueNamesIn subs = true)
    (n : String) (g : zipped_folder) (hg : subs.lookup n = some g) : g.uniqueNames = true := by
  induction subs with
  | nil => simp at hg
  | cons it rest ih =>
    obtain ⟨k, sub⟩ := it
    simp only [uniqueNamesIn, Bool.and_eq_true] at h
    by_cases hk : n = k
    · subst hk
      simp at hg
      subst hg
      exact h.1
    · have : (n == k) = false := by simpa using hk
      simp only [List.lookup_cons, this] at hg
      exact ih h.2 hg

theorem isMerge_copy : IsMerge merge_from_base := by
  refine ⟨fun a b k => ?_, fun a b hb n => ?_⟩
  · obtain ⟨af, asub⟩ := a
    obtain ⟨bf, bsub⟩ := b
    simp [merge_from_base, zipped_folder.files, lookup_mergeFiles]
  · obtain ⟨af, asub⟩ := a
    obtain ⟨bf, bsub⟩ := b
    simp only [merge_from_base, zipped_folder.subfolders]
    rw [mergeSubfolders_eq_with]
    exact lookup_mergeSubfoldersWith _ _ _ (uniqueNames_mk _ _ hb).1 n

theorem isMerge_move : IsMerge merge_from_base_move := by
  refine ⟨fun a b k => ?_, fun a b hb n => ?_⟩
  · obtain ⟨af, asub⟩ := a
    obtain ⟨bf, bsub⟩ := b
    simp [merge_from_base_move, zipped_folder.files, lookup_mapMerge]
  · obtain ⟨af, asub⟩ := a
    obtain ⟨bf, bsub⟩ := b
    simp only [merge_from_base_move, zipped_folder.subfolders]
    rw [mergeSubfoldersMove_eq_with]
    exact lookup_mergeSubfoldersWith _ _ _ (uniqueNames_mk _ _ hb).1 n

theorem uniqueNames_sub (b g : zipped_folder) (hb : b.uniqueNames = true) (n : String)
    (hg : b.subfolders.lookup n = some g) : g.uniqueNames = true := by
  obtain ⟨bf, bsub⟩ := b
  exact uniqueNamesIn_lookup bsub (uniqueNames_mk _ _ hb).2 n g hg

theorem getFolder_merge (m : zipped_folder → zipped_folder → zipped_folder) (hm : IsMerge m)
    (path : List String) (a b : zipped_folder) (hb : b.uniqueNames = true) :
    getFolder (m a b) path = combineFolders m (getFolder a path) (getFolder b path) := by
  induction path generalizing a b with
  | nil => simp [getFolder, combineFolders]
  | cons n rest ih =>
    simp only [getFolder]
    rw [hm.2 a b hb n]
    cases ha : a.subfolders.lookup n with
    | none =>
      cases hbn : b.subfolders.lookup n with
      | none => simp [combineFolders]
      | some y => simp [combineFolders]
    | some x =>
      cases hbn : b.subfolders.lookup n with
      | none => cases hx : getFolder x rest <;> simp [combineFolders, hx]
      | some y =>
        simp only [combineFolders]
        exact ih x y (uniqueNames_sub b y hb n hbn)

theorem getFile_merge (m : zipped_folder → zipped_folder → zipped_folder) (hm : IsMerge m)
    (path : List String) (name : String) (a b : zipped_folder) (hb : b.uniqueNames = true) :
    getFile (m a b) path name = (getFile a path name).or (getFile b path name) := by
  unfold getFile
  rw [getFolder_merge m hm path a b hb]
  cases ha : getFolder a path with
  | none => cases hbp : getFolder b path <;> simp [combineFolders]
  | some x =>
    cases hbp : getFolder b path with
    | none => cases hx : x.files.lookup name <;> simp [combineFolders, hx]
    | some y => simp [combineFolders, hm.1]

theorem getFolder_merge_isSome (m : zipped_folder → zipped_folder → zipped_folder)
    (hm : IsMerge m) (path : List String) (a b : zipped_folder) (hb : b.uniqueNames = true) :
    (getFolder (m a b) path).isSome = ((getFolder a path).isSome || (getFolder b path).isSome) := by
  rw [getFolder_merge m hm path a b hb]
  cases getFolder a path <;> cases getFolder b path <;> simp [combineFolders]

/-- C25: `merge_from_base(const zipped_folder &)` is a recursive union in which
the receiver has priority. For a base whose subfolder names are unique, as in
a map: at every path the file of a name is afterwards the file the receiver had
there, or else the file the base had there; a folder is there iff the receiver
or the base had one; merging an empty base leaves the receiver as it is; and
after a second merge of the same base every file and every folder is what it
was after the first. The base is an argument the function only reads. -/
theorem merge_from_base_union (a b : zipped_folder) (hb : b.uniqueNames = true) :
    (∀ path name, getFile (merge_from_base a b) path name =
        (getFile a path name).or (getFile b path name)) ∧
      (∀ path, (getFolder (merge_from_base a b) path).isSome =
        ((getFolder a path).isSome || (getFolder b path).isSome)) ∧
      merge_from_base a (zipped_folder.mk [] []) = a ∧
      (∀ path name, getFile (merge_from_base (merge_from_base a b) b) path name =
        getFile (merge_from_base a b) path name) ∧
      (∀ path, (getFolder (merge_from_base (merge_from_base a b) b) path).isSome =
        (getFolder (merge_from_base a b) path).isSome) := by
  refine ⟨fun path name => getFile_merge _ isMerge_copy path name a b hb,
    fun path => getFolder_merge_isSome _ isMerge_copy path a b hb, ?_, fun path name => ?_,
    fun path => ?_⟩
  · obtain ⟨af, asub⟩ := a
    simp [merge_from_base, mergeFiles, mergeSubfolders]
  · rw [getFile_merge _ isMerge_copy path name _ b hb, getFile_merge _ isMerge_copy path name a b hb]
    cases getFile a path name <;> cases getFile b path name <;> simp
  · rw [getFolder_merge_isSome _ isMerge_copy path _ b hb,
      getFolder_merge_isSome _ isMerge_copy path a b hb]
    cases (getFolder a path).isSome <;> cases (getFolder b path).isSome <;> rfl

/-- Witness of C25: `a` and `x/c` keep the contents of the receiver, `x/d` and
`y/e` come from the base. -/
theorem merge_from_base_union_witness :
    getFile (merge_from_base packA packB) [] "a" = some [1] ∧
      getFile (merge_from_base packA packB) ["x"] "c" = some [7] ∧
      getFile (merge_from_base packA packB) ["x"] "d" = some [4] ∧
      getFile (merge_from_base packA packB) ["y"] "e" = some [5] :=
  have h := (merge_from_base_union packA packB (by decide)).1
  ⟨by rw [h]; decide, by rw [h]; decide, by rw [h]; decide, by rw [h]; decide⟩

/-- C26: the two overloads agree. For a base whose subfolder names are unique,
the receiver has after `merge_from_base(zipped_folder &&)` the same file with
the same contents at every path and name, and a folder at the same paths, as
after `merge_from_base(const zipped_folder &)`. -/
theorem merge_from_base_overloads_agree (a b : zipped_folder) (hb : b.uniqueNames = true) :
    (∀ path name, getFile (merge_from_base_move a b) path name =
        getFile (merge_from_base a b) path name) ∧
      (∀ path, (getFolder (merge_from_base_move a b) path).isSome =
        (getFolder (merge_from_base a b) path).isSome) := by
  refine ⟨fun path name => ?_, fun path => ?_⟩
  · rw [getFile_merge _ isMerge_move path name a b hb, getFile_merge _ isMerge_copy path name a b hb]
  · rw [getFolder_merge_isSome _ isMerge_move path a b hb,
      getFolder_merge_isSome _ isMerge_copy path a b hb]

/-- Witness of C26: the file `x/d` after either overload. -/
theorem merge_from_base_overloads_agree_witness :
    getFile (merge_from_base_move packA packB) ["x"] "d" =
      getFile (merge_from_base packA packB) ["x"] "d" :=
  (merge_from_base_overloads_agree packA packB (by decide)).1 ["x"] "d"

/-! ## MainWindow: preProcess and the map files (C27, C28) -/

/-- C27, as stated, fails: under the strategies `W` and `B` the pixel of alpha
128 is not replaced by the background colour, and under `B` and `W` the pixel
of alpha 0 is not: with `W` for either class no pixel is changed. -/
theorem preProcess_waits_for_both :
    qAlpha 2148676694 = 128 ∧
      preProcess (fun px _ => px) 'W' 'B' 4294967295 [[2148676694, 1193046]]
        = [[2148676694, 1193046]] ∧
      qAlpha 1193046 = 0 ∧
      preProcess (fun px _ => px) 'B' 'W' 4294967295 [[2148676694, 1193046]]
        = [[2148676694, 1193046]] := by
  decide

theorem qRgb_channels (px : Nat) :
    qRgb (qRed px) (qGreen px) (qBlue px) = 255 * 2 ^ 24 + px % 2 ^ 24 := by
  unfold qRgb qRed qGreen qBlue
  norm_num
  omega

/-- C27, amended: when either strategy is `W`, `preProcess` changes no pixel.
When neither is, every pixel is handled by the strategy of its class: a pixel
of alpha 255 is unchanged; a pixel of alpha 0 becomes the background colour
under `B` and 0x00000000 under `A`; a pixel of alpha between 0 and 255 becomes
the background colour under `B`, its composition with the background under `C`
and its own RGB with alpha 255 under `R`. -/
theorem preProcess_strategies (ComposeColor : Nat → Nat → Nat)
    (pureTpStrategy halfTpStrategy : Char) (BGC : Nat) (rawPic : List (List Nat)) :
    ((pureTpStrategy = 'W' ∨ halfTpStrategy = 'W') →
        preProcess ComposeColor pureTpStrategy halfTpStrategy BGC rawPic = rawPic) ∧
      (pureTpStrategy ≠ 'W' → halfTpStrategy ≠ 'W' →
        preProcess ComposeColor pureTpStrategy halfTpStrategy BGC rawPic =
          rawPic.map (fun CL =>
            CL.map (preProcessPixel ComposeColor pureTpStrategy halfTpStrategy BGC)) ∧
        ∀ px : Nat,
          (qAlpha px = 255 →
            preProcessPixel ComposeColor pureTpStrategy halfTpStrategy BGC px = px) ∧
          (qAlpha px = 0 → pureTpStrategy = 'B' →
            preProcessPixel ComposeColor pureTpStrategy halfTpStrategy BGC px = BGC) ∧
          (qAlpha px = 0 → pureTpStrategy = 'A' →
            preProcessPixel ComposeColor pureTpStrategy halfTpStrategy BGC px = 0) ∧
          (0 < qAlpha px → qAlpha px < 255 → halfTpStrategy = 'B' →
            preProcessPixel ComposeColor pureTpStrategy halfTpStrategy BGC px = BGC) ∧
          (0 < qAlpha px → qAlpha px < 255 → halfTpStrategy = 'C' →
            preProcessPixel ComposeColor pureTpStrategy halfTpStrategy BGC px
              = ComposeColor px BGC) ∧
          (0 < qAlpha px → qAlpha px < 255 → halfTpStrategy = 'R' →
            preProcessPixel ComposeColor pureTpStrategy halfTpStrategy BGC px
              = 255 * 2 ^ 24 + px % 2 ^ 24)) := by
  refine ⟨fun h => ?_, fun h1 h2 => ⟨?_, fun px => ⟨?_, ?_, ?_, ?_, ?_, ?_⟩⟩⟩
  · unfold preProcess
    rcases h with h | h <;> simp [h]
  · unfold preProcess
    simp [h1, h2]
  · intro ha
    simp [preProcessPixel, ha]
  · intro ha hp
    simp [preProcessPixel, ha, hp]
  · intro ha hp
    simp [preProcessPixel, ha, hp]
  · intro h0 h255 hs
    have hne : qAlpha px ≠ 0 := by omega
    have hge : ¬ qAlpha px ≥ 255 := by omega
    simp [preProcessPixel, hne, hge, hs]
  · intro h0 h255 hs
    have hne : qAlpha px ≠ 0 := by omega
    have hge : ¬ qAlpha px ≥ 255 := by omega
    simp [preProcessPixel, hne, hge, hs]
  · intro h0 h255 hs
    have hne : qAlpha px ≠ 0 := by omega
    have hge : ¬ qAlpha px ≥ 255 := by omega
    rw [← qRgb_channels]
    simp [preProcessPixel, hne, hge, hs]

/-- Witness of C27, amended: under `A` and `R` a half transparent pixel keeps its
RGB, a transparent one becomes 0 and an opaque one stays. -/
theorem preProcess_strategies_witness :
    preProcess (fun px _ => px) 'A' 'R' 4294967295 [[2148676694, 1193046, 4279383126]]
      = [[4279383126, 0, 4279383126]] := by
  have h := (preProcess_strategies (fun px _ => px) 'A' 'R' 4294967295
    [[2148676694, 1193046, 4279383126]]).2 (by decide) (by decide)
  rw [h.1]
  decide

/-- The integer `ceilDiv128` is the ceiling of the quotient by 128. -/
theorem ceilDiv128_eq_ceil (x : Int) : ceilDiv128 x = ⌈(x : ℚ) / 128⌉ := by
  unfold ceilDiv128
  symm
  rw [Int.ceil_eq_iff]
  have h1 : (128 : ℚ) > 0 := by norm_num
  constructor
  · rw [lt_div_iff₀ h1]
    have : ((x + 127) / 128 - 1) * 128 < x := by omega
    exact_mod_cast this
  · rw [div_le_iff₀ h1]
    have : x ≤ ((x + 127) / 128) * 128 := by omega
    exact_mod_cast this

/-- C28, on the code: for an image of 128 rows and 256 columns `on_ExData_clicked`
shows 2 maps, and `on_InputDataIndex_textChanged` shows for start index 0 the
range from 0 to 0; for 256 rows and 128 columns the count is 2 again and the
range ends at 3. -/
theorem map_range_uses_rows_twice :
    on_ExData_clicked 128 256 = (1, 2, 2) ∧
      on_InputDataIndex_textChanged 128 256 (some 0) = (ShownFileName.range 0 0, true) ∧
      on_ExData_clicked 256 128 = (2, 1, 2) ∧
      on_InputDataIndex_textChanged 256 128 (some 0) = (ShownFileName.range 0 3, true) := by
  decide

end SlopeCraft
